import Mathlib

/-!
Verification development for the tally configuration-migration subsystem
(`src/tally/migrations.py`).

The embedding models paths as lists of components, the filesystem as an
association list from paths to nodes (files with string contents, or
directories), and the process environment (working directory, interactivity
of stdin/stdout, interactive answers, and injected I/O failures) as a record
of pure functions, so every run of the embedded code is deterministic.
Stdout and stderr are modeled as lists of constant message tags, one tag per
print site in the source (formatting, colors and interpolated details are
elided).  External collaborators that are not part of the provided sources
(`load_merchant_rules`, `get_all_rules`, `csv_to_merchants_content`) are
modelled from the spec, as noted on their definitions.
-/

namespace Tally

/-- A filesystem path, as its list of components (its textual form split on
the separator).  `os.path.basename` is the last component,
`os.path.dirname` drops the last component. -/
abbrev Path := List String

/-- A filesystem node: a regular file with its contents, or a directory. -/
inductive Node where
  | file (content : String) : Node
  | dir : Node
deriving DecidableEq, Repr

/-- The filesystem: an association list from paths to nodes.  Lookups take
the first matching entry. -/
abbrev FS := List (Path × Node)

/-- Look up the node stored at a path (first matching entry). -/
def FS.lookup : FS → Path → Option Node
  | [], _ => none
  | (q, n) :: t, p => if q = p then some n else FS.lookup t p

/-- Store a node at a path, replacing any previous entry for that path. -/
def FS.insert (fs : FS) (p : Path) (n : Node) : FS :=
  (p, n) :: fs.filter (fun e => decide (e.1 ≠ p))

/-- Remove every entry stored exactly at a path. -/
def FS.erase (fs : FS) (p : Path) : FS :=
  fs.filter (fun e => decide (e.1 ≠ p))

/-- Boolean path-prefix test, component by component. -/
def isPathPrefix : Path → Path → Bool
  | [], _ => true
  | _ :: _, [] => false
  | a :: as, b :: bs => a == b && isPathPrefix as bs

/-- Relocate one path under a move from `src` to `dst`: a path at or below
`src` is re-rooted at `dst`, any other path is unchanged. -/
def remapPath (src dst p : Path) : Path :=
  if isPathPrefix src p then dst ++ p.drop src.length else p

/-- Relocate a whole subtree: every entry at or below `src` is re-rooted at
`dst` (used for directory moves, which carry their contents along). -/
def FS.moveTree (fs : FS) (src dst : Path) : FS :=
  fs.map (fun e => (remapPath src dst e.1, e.2))

/-- `os.path.basename` on the component representation. -/
def basename (p : Path) : String := p.getLastD ""

/-- `os.path.dirname` on the component representation. -/
def dirname (p : Path) : Path := p.dropLast

/-- One legacy categorization rule: a matcher and its assigned category. -/
abbrev RuleRecord := String × String

/-- An ordered rule set (order carries first-match-wins priority). -/
abbrev RuleSet := List RuleRecord

/-- The static process environment: working directory, interactivity,
scripted interactive answers (`none` models end-of-input or a user
interrupt), injected I/O failures, and the behaviour of the external
rule-engine collaborators.  All fields are pure, so repeated runs under the
same environment behave identically. -/
structure Env where
  cwd : Path
  stdinTTY : Bool
  stdoutTTY : Bool
  /-- Answer to the layout-migration prompt; `none` is end-of-input or
  interrupt. -/
  answer : Option String
  /-- Answer to the rule-format-migration prompt; `none` is end-of-input or
  interrupt. -/
  answer2 : Option String
  failMkdir : Path → Bool
  failMove : Path → Path → Bool
  failWrite : Path → Bool
  failRead : Path → Bool
  /-- Modelled from the spec: whether the legacy rule-table parser fails on
  a given file content (a parse/format failure in `load_merchant_rules`,
  which is not part of the provided sources). -/
  parseFails : String → Bool
  /-- Modelled from the spec: the rule set denoted by a rule file with the
  given content (shared by `load_merchant_rules` and `get_all_rules`,
  which both map a rule file to its RuleSet). -/
  rulesOfContent : String → RuleSet
  /-- Modelled from the spec: the built-in default rule set returned by
  `get_all_rules` when no path is given. -/
  defaultRules : RuleSet
  /-- Modelled from the spec: `csv_to_merchants_content`, converting a
  legacy rule set to expression-rule text. -/
  convert : RuleSet → String

/-- The mutable process state threaded through the embedded code: the
filesystem plus the stdout and stderr logs (most recent message first). -/
structure St where
  fs : FS
  out : List String
  err : List String

/-- Append a message to stdout. -/
def pushOut (st : St) (m : String) : St := { st with out := m :: st.out }

/-- Append a message to stderr. -/
def pushErr (st : St) (m : String) : St := { st with err := m :: st.err }

/-- `os.makedirs(p, exist_ok=True)`: no-op if `p` is already a directory,
error if it is a file or the injected failure fires. -/
def doMakedirs (env : Env) (st : St) (p : Path) : Except String St :=
  if env.failMkdir p then Except.error "mkdir io error"
  else
    match st.fs.lookup p with
    | some Node.dir => Except.ok st
    | some (Node.file _) => Except.error "mkdir target is a file"
    | none => Except.ok { st with fs := st.fs.insert p Node.dir }

/-- `shutil.move(src, dst)`: fails if the source is missing or the injected
failure fires; moving into an existing directory lands at
`dst/basename(src)` and fails if that already exists; a file may replace an
existing destination file; a directory move onto an existing file fails;
directory moves carry the whole subtree. -/
def doMove (env : Env) (st : St) (src dst : Path) : Except String St :=
  if env.failMove src dst then Except.error "move io error"
  else
    match st.fs.lookup src with
    | none => Except.error "move source missing"
    | some (Node.file c) =>
      match st.fs.lookup dst with
      | some Node.dir =>
        if ((st.fs.lookup (dst ++ [basename src])).isSome : Bool) then
          Except.error "move destination exists"
        else Except.ok { st with fs := (st.fs.erase src).insert (dst ++ [basename src]) (Node.file c) }
      | _ => Except.ok { st with fs := (st.fs.erase src).insert dst (Node.file c) }
    | some Node.dir =>
      match st.fs.lookup dst with
      | some Node.dir =>
        if ((st.fs.lookup (dst ++ [basename src])).isSome : Bool) then
          Except.error "move destination exists"
        else Except.ok { st with fs := st.fs.moveTree src (dst ++ [basename src]) }
      | some (Node.file _) => Except.error "move destination not a directory"
      | none => Except.ok { st with fs := st.fs.moveTree src dst }

/-- `open(p, "w")` followed by writing `c`: fails on the injected failure,
if `p` is a directory, or if the parent entry is a file; otherwise creates
or truncates the file atomically.  (Absent parent entries are treated as
present directories; the loose filesystem does not track them.) -/
def doWrite (env : Env) (st : St) (p : Path) (c : String) : Except String St :=
  if env.failWrite p then Except.error "write io error"
  else
    match st.fs.lookup p with
    | some Node.dir => Except.error "write target is a directory"
    | _ =>
      match st.fs.lookup (dirname p) with
      | some (Node.file _) => Except.error "write parent is a file"
      | _ => Except.ok { st with fs := st.fs.insert p (Node.file c) }

/-- `open(p).read()`: fails on the injected failure, if the entry is a
directory, or if it is absent. -/
def doRead (env : Env) (fs : FS) (p : Path) : Except String String :=
  if env.failRead p then Except.error "read io error"
  else
    match fs.lookup p with
    | some (Node.file c) => Except.ok c
    | _ => Except.error "not a readable file"

/-- Python whitespace test for `str.strip`. -/
def isPySpace (c : Char) : Bool :=
  c == ' ' || c == '\t' || c == '\n' || c == '\r' || c == '\x0b' || c == '\x0c'

/-- Drop leading whitespace characters. -/
def dropLeadingSpace : List Char → List Char
  | [] => []
  | c :: t => if isPySpace c then dropLeadingSpace t else c :: t

/-- Python `str.strip()`: drop leading and trailing whitespace. -/
def pyStrip (s : String) : String :=
  ⟨(dropLeadingSpace (dropLeadingSpace s.data.reverse).reverse)⟩

/-- Python `str.lower()` (ASCII fragment). -/
def pyLower (s : String) : String := ⟨s.data.map Char.toLower⟩

/-- Parse a nonempty run of decimal digits. -/
def parseDigits : List Char → Option Nat
  | [] => none
  | l => l.foldl (fun acc? c =>
      match acc? with
      | none => none
      | some acc => if c.isDigit then some (acc * 10 + (c.toNat - 48)) else none)
      (some 0)

/-- Python `int(s)` on an already-stripped string: an optional sign followed
by decimal digits.  (Digit-group underscores and non-ASCII digits are not
modeled.) -/
def parseInt (s : String) : Option Int :=
  match s.data with
  | '-' :: rest => (parseDigits rest).map (fun n => -(n : Int))
  | '+' :: rest => (parseDigits rest).map (fun n => (n : Int))
  | l => (parseDigits l).map (fun n => (n : Int))

/-- Name of the schema marker file. -/
def schemaMarkerName : String := ".tally-schema"

/-- Target schema version of the engine (`SCHEMA_VERSION = 1`). -/
def SCHEMA_VERSION : Int := 1

/-- `get_schema_version(config_dir)`: read the marker file; 0 if it is
absent, unreadable or non-numeric (the read is attempted only when the
marker path exists, mirroring the `os.path.exists` guard). -/
def get_schema_version (env : Env) (fs : FS) (config_dir : Path) : Int :=
  let schema_file := config_dir ++ [schemaMarkerName]
  match fs.lookup schema_file with
  | some _ =>
    match doRead env fs schema_file with
    | Except.error _ => 0
    | Except.ok content =>
      match parseInt (pyStrip content) with
      | some n => n
      | none => 0
  | none => 0

/-! Message tags, one per print site (text abbreviated, details elided). -/

/-- Stdout tag for the layout-migration prompt block. -/
def layoutPromptMsg : String := "Migration available: layout update"

/-- Stdout tag for the interrupted layout prompt (`Skipped.`). -/
def layoutSkippedMsg : String := "Skipped"

/-- Stdout tag for the config-directory move announcement. -/
def movingConfigMsg : String := "Moving config into tally"

/-- Stdout tag for a data/output subdirectory move announcement. -/
def movingSubdirMsg : String := "Moving subdir into tally"

/-- Stdout tag for the layout-migration success line. -/
def layoutDoneMsg : String := "Migrated to tally"

/-- Stderr tag for a layout-migration I/O failure (the only stderr print). -/
def layoutErrorMsg (e : String) : String := "Error during migration: " ++ e

/-- Stdout tag for the created merchants.rules line. -/
def createdRulesMsg : String := "Created merchants.rules"

/-- Stdout tag for the converted-rule-count line. -/
def convertedRulesMsg : String := "Converted merchant rules to new format"

/-- Stdout tag for the CSV backup line. -/
def backedUpMsg : String := "Backed up merchant_categories.csv to bak"

/-- Stdout tag for the settings.yaml update line. -/
def updatedSettingsMsg : String := "Updated settings.yaml"

/-- Stdout tag for a failed CSV conversion. -/
def csvFailedMsg (e : String) : String := "Migration failed: " ++ e

/-- Stdout tag for the CSV-upgrade-available box. -/
def upgradeBoxMsg : String := "Upgrade available: legacy CSV format found"

/-- Stdout tag for the declined rule-format prompt. -/
def ruleSkippedMsg : String := "Skipped - continuing with CSV format for this run"

/-- Stdout tag for the non-interactive migration tip. -/
def migrateTipMsg : String := "Tip: run with the migrate flag to convert automatically"

/-- Stdout tag for the migrating announcement. -/
def migratingMsg : String := "Migrating to new format"

/-- Stdout tag for the migration-complete line. -/
def migrationCompleteMsg : String := "Migration complete"

/-- Stdout tag for the loaded-rule-count line. -/
def loadedRulesMsg : String := "Loaded categorization rules"

/-- Stdout tag for the empty-rule-set warning block. -/
def noRulesWarnMsg : String := "Warning: no merchant rules defined - all transactions will be Unknown"

/-- Stdout tag for the no-rules-file line. -/
def noRulesFoundMsg : String := "No merchant rules found - transactions will be categorized as Unknown"

/-! The layout migration (v0 to v1) and the migration pipeline. -/

/-- The execution phase of `migrate_v0_to_v1`, after preconditions and
confirmation: create `tally`, move `config` into it, move existing
`data`/`output` siblings, write the version marker inside the new config
location, in order; any step error aborts and is reported on stderr. -/
def moveSubdirStep (env : Env) (st : St) (tally_dir : Path) (subdir : String) : Except String St :=
  match st.fs.lookup (env.cwd ++ [subdir]) with
  | some Node.dir =>
    doMove env (pushOut st movingSubdirMsg) (env.cwd ++ [subdir]) (tally_dir ++ [subdir])
  | _ => Except.ok st

/-- The fallible body of the layout migration, mirroring the `try` block of
`migrate_v0_to_v1` (steps in source order; the state at the failure point is
carried by the error so partial mutation is preserved). -/
def performMigration (env : Env) (st : St) (old_config_dir : Path) : Option Path × St :=
  let tally_dir := env.cwd ++ ["tally"]
  match doMakedirs env st tally_dir with
  | Except.error e => (none, pushErr st (layoutErrorMsg e))
  | Except.ok st1 =>
    let new_config := tally_dir ++ ["config"]
    let st1 := pushOut st1 movingConfigMsg
    match doMove env st1 old_config_dir new_config with
    | Except.error e => (none, pushErr st1 (layoutErrorMsg e))
    | Except.ok st2 =>
      match moveSubdirStep env st2 tally_dir "data" with
      | Except.error e => (none, pushErr st2 (layoutErrorMsg e))
      | Except.ok st3 =>
        match moveSubdirStep env st3 tally_dir "output" with
        | Except.error e => (none, pushErr st3 (layoutErrorMsg e))
        | Except.ok st4 =>
          match doWrite env st4 (new_config ++ [schemaMarkerName]) "1\n" with
          | Except.error e => (none, pushErr st4 (layoutErrorMsg e))
          | Except.ok st5 => (some new_config, pushOut st5 layoutDoneMsg)

/-- `migrate_v0_to_v1(old_config_dir, skip_confirm)`: decline unless the
directory is named `config` directly under the working directory; when not
skipping confirmation, decline silently without an interactive stdin,
decline on end-of-input or interrupt (printing `Skipped.`), decline on the
answer `n` (after strip and lowercase); otherwise perform the migration. -/
def migrate_v0_to_v1 (env : Env) (st : St) (old_config_dir : Path) (skip_confirm : Bool) : Option Path × St :=
  if basename old_config_dir ≠ "config" then (none, st)
  else if dirname old_config_dir ≠ env.cwd then (none, st)
  else if skip_confirm then performMigration env st old_config_dir
  else if env.stdinTTY = false then (none, st)
  else
    let st1 := pushOut st layoutPromptMsg
    match env.answer with
    | none => (none, pushOut st1 layoutSkippedMsg)
    | some r =>
      if pyLower (pyStrip r) = "n" then (none, st1)
      else performMigration env st1 old_config_dir

/-- `run_migrations(config_dir, skip_confirm)`: return unchanged when the
schema version is current; otherwise run the v0-to-v1 step and adopt its
result when it returns a new location (a `None` result is falsy and leaves
the directory unchanged). -/
def run_migrations (env : Env) (st : St) (config_dir : Path) (skip_confirm : Bool) : Path × St :=
  let current := get_schema_version env st.fs config_dir
  if current ≥ SCHEMA_VERSION then (config_dir, st)
  else if current < 1 then
    match migrate_v0_to_v1 env st config_dir skip_confirm with
    | (some p, st') => (p, st')
    | (none, st') => (config_dir, st')
  else (config_dir, st)

/-! The CSV-to-rules migration and the rule source resolver. -/

/-- Modelled from the spec: `load_merchant_rules(path) -> RuleSet`, the
external legacy rule-table loader; raises on an I/O error (missing file or
directory) and on a parse/format failure of the contents. -/
def load_merchant_rules (env : Env) (fs : FS) (p : Path) : Except String RuleSet :=
  match fs.lookup p with
  | some (Node.file c) =>
    if env.parseFails c then Except.error "legacy rule table parse failure"
    else Except.ok (env.rulesOfContent c)
  | _ => Except.error "rule file not readable"

/-- Modelled from the spec: `get_all_rules(path?, match_mode) -> RuleSet`,
the external rule-retrieval collaborator; with no path it returns the
built-in default rule set, otherwise the rule set denoted by the file
content (the match mode configures matching, not membership). -/
def get_all_rules (env : Env) (fs : FS) (path? : Option Path) (_match_mode : String) : RuleSet :=
  match path? with
  | none => env.defaultRules
  | some p =>
    match fs.lookup p with
    | some (Node.file c) => env.rulesOfContent c
    | _ => env.defaultRules

/-- The pointer text appended to settings.yaml: a comment line followed by
the `merchants_file:` pointer line. -/
def settingsPointerAppendix : String :=
  "\n# Merchant rules file (migrated from CSV)\nmerchants_file: config/merchants.rules\n"

/-- Boolean starts-with on character lists. -/
def listStartsWith : List Char → List Char → Bool
  | [], _ => true
  | _ :: _, [] => false
  | a :: as, b :: bs => a == b && listStartsWith as bs

/-- Boolean substring search on character lists (needle, then haystack). -/
def listContainsSub (needle : List Char) : List Char → Bool
  | [] => needle.isEmpty
  | c :: t => listStartsWith needle (c :: t) || listContainsSub needle t

/-- Python `needle in hay` on strings. -/
def strContains (hay needle : String) : Bool := listContainsSub needle.data hay.data

/-- The settings-file update of `migrate_csv_to_rules`, as a content
transformation: append the pointer (comment line plus pointer line) only if
no `merchants_file:` pointer already occurs in the content. -/
def updateSettingsContent (c : String) : String :=
  if strContains c "merchants_file:" then c else c ++ settingsPointerAppendix

/-- The settings.yaml step of `migrate_csv_to_rules`: skipped entirely when
the file does not exist; otherwise read it and, only if no pointer is
already present, append the comment-plus-pointer lines. -/
def csvSettingsStep (env : Env) (st : St) (config_dir : Path) : Except (String × St) St :=
  let settings_path := config_dir ++ ["settings.yaml"]
  match st.fs.lookup settings_path with
  | none => Except.ok st
  | some _ =>
    match doRead env st.fs settings_path with
    | Except.error e => Except.error (e, st)
    | Except.ok content =>
      if strContains content "merchants_file:" then Except.ok st
      else
        match doWrite env st settings_path (content ++ settingsPointerAppendix) with
        | Except.error e => Except.error (e, st)
        | Except.ok st' => Except.ok (pushOut st' updatedSettingsMsg)

/-- Path of the CSV backup: the source path with `.bak` appended to its
final component. -/
def bakPath (p : Path) : Path := p.dropLast ++ [basename p ++ ".bak"]

/-- The `try` body of `migrate_csv_to_rules`: load and convert the legacy
table, write `merchants.rules`, back up the CSV when requested and still
present, then update settings.yaml; an exception at any step carries the
state reached so far. -/
def csvBody (env : Env) (st : St) (csv_file config_dir : Path) (backup : Bool) : Except (String × St) St :=
  match load_merchant_rules env st.fs csv_file with
  | Except.error e => Except.error (e, st)
  | Except.ok csv_rules =>
    let content := env.convert csv_rules
    let new_file := config_dir ++ ["merchants.rules"]
    match doWrite env st new_file content with
    | Except.error e => Except.error (e, st)
    | Except.ok stw =>
      let stw := pushOut (pushOut stw createdRulesMsg) convertedRulesMsg
      if backup && (stw.fs.lookup csv_file).isSome then
        match doMove env stw csv_file (bakPath csv_file) with
        | Except.error e => Except.error (e, stw)
        | Except.ok stm => csvSettingsStep env (pushOut stm backedUpMsg) config_dir
      else csvSettingsStep env stw config_dir

/-- `migrate_csv_to_rules(csv_file, config_dir, backup) -> bool`: run the
body; any exception is caught, reported on stdout, and turned into a
`False` result. -/
def migrate_csv_to_rules (env : Env) (st : St) (csv_file config_dir : Path) (backup : Bool) : Bool × St :=
  match csvBody env st csv_file config_dir backup with
  | Except.ok st' => (true, st')
  | Except.error (e, st') => (false, pushOut st' (csvFailedMsg e))

/-- The configuration metadata consumed by `check_merchant_migration`:
the detected rule file, its detected format, and the rule match mode. -/
structure TallyConfig where
  merchants_file : Option Path
  merchants_format : Option String
  rule_mode : String

/-- Python truthiness of the detected rule file (absent or empty is falsy). -/
def pathTruthy : Option Path → Bool
  | none => false
  | some p => !p.isEmpty

/-- Whether the scripted rule-format prompt answer is `y` (after strip and
lowercase); end-of-input or interrupt answers no. -/
def answerIsYes : Option String → Bool
  | none => false
  | some r => pyLower (pyStrip r) == "y"

/-- The migration decision of `check_merchant_migration`: forced by the
migrate flag, otherwise asked interactively (stdout a tty and no flag),
otherwise no. -/
def shouldMigrateB (env : Env) (migrate : Bool) : Bool :=
  migrate || (env.stdoutTTY && !migrate && answerIsYes env.answer2)

/-- The confirmation step of the CSV branch of `check_merchant_migration`,
naming its internal prompted pair: the migration decision, together with
the state after the upgrade-box, prompt-skip or tip prints. -/
def csvPromptStep (env : Env) (st : St) (quiet migrate : Bool) : Bool × St :=
  let is_interactive := env.stdoutTTY && !migrate
  let st := if quiet then st else pushOut st upgradeBoxMsg
  if is_interactive then
    match env.answer2 with
    | none => (false, pushOut st ruleSkippedMsg)
    | some r =>
      let yes := pyLower (pyStrip r) == "y"
      (yes, if yes then st else pushOut st ruleSkippedMsg)
  else if !migrate && !quiet then (migrate, pushOut st migrateTipMsg)
  else (migrate, st)

/-- The fall-through tail of the CSV branch of `check_merchant_migration`:
report the loaded count, warn once when the loaded legacy rule set is
empty, and return the rules loaded from the legacy path. -/
def csvFallThrough (env : Env) (st : St) (mf : Path) (rule_mode : String) (quiet : Bool) (csv_rules : RuleSet) : Except (String × St) (RuleSet × St) :=
  let st := if quiet then st else
    let st := pushOut st loadedRulesMsg
    if csv_rules.length = 0 then pushOut st noRulesWarnMsg else st
  Except.ok (get_all_rules env st.fs (some mf) rule_mode, st)

/-- `check_merchant_migration(config, config_dir, quiet, migrate)`: resolve
the rule source for this run.  No rule file: report (unless quiet) and
return the built-in default rules.  CSV format: load the legacy table (a
loader exception propagates), offer or force migration, return the new
file's rules on success, fall through to the legacy path otherwise.  New
format: load, warn once when empty (unless quiet), return.  Anything else:
report (unless quiet) and return the default rules. -/
def check_merchant_migration (env : Env) (st : St) (config : TallyConfig) (config_dir : Path) (quiet : Bool) (migrate : Bool) : Except (String × St) (RuleSet × St) :=
  let rule_mode := config.rule_mode
  if pathTruthy config.merchants_file = false then
    let st := if quiet then st else pushOut st noRulesFoundMsg
    Except.ok (get_all_rules env st.fs none rule_mode, st)
  else
    match config.merchants_file with
    | none => Except.ok (get_all_rules env st.fs none rule_mode, st)
    | some mf =>
      if config.merchants_format = some "csv" then
        match load_merchant_rules env st.fs mf with
        | Except.error e => Except.error (e, st)
        | Except.ok csv_rules =>
          let is_interactive := env.stdoutTTY && !migrate
          let st := if quiet then st else pushOut st upgradeBoxMsg
          let prompted : Bool × St :=
            if is_interactive then
              match env.answer2 with
              | none => (false, pushOut st ruleSkippedMsg)
              | some r =>
                let yes := pyLower (pyStrip r) == "y"
                (yes, if yes then st else pushOut st ruleSkippedMsg)
            else if !migrate && !quiet then (migrate, pushOut st migrateTipMsg)
            else (migrate, st)
          let should_migrate := prompted.1
          let st := prompted.2
          if should_migrate then
            let st := pushOut st migratingMsg
            match migrate_csv_to_rules env st mf config_dir true with
            | (true, st') =>
              let st' := pushOut st' migrationCompleteMsg
              let new_file := config_dir ++ ["merchants.rules"]
              Except.ok (get_all_rules env st'.fs (some new_file) rule_mode, st')
            | (false, st') => csvFallThrough env st' mf rule_mode quiet csv_rules
          else csvFallThrough env st mf rule_mode quiet csv_rules
      else if config.merchants_format = some "new" then
        let rules := get_all_rules env st.fs (some mf) rule_mode
        let st := if quiet then st else
          let st := pushOut st loadedRulesMsg
          if rules.length = 0 then pushOut st noRulesWarnMsg else st
        Except.ok (rules, st)
      else
        let st := if quiet then st else pushOut st noRulesFoundMsg
        Except.ok (get_all_rules env st.fs none rule_mode, st)

/-- The rule set of a resolver result (empty on a propagated exception);
used to state claims about the returned rules. -/
def resultRules : Except (String × St) (RuleSet × St) → RuleSet
  | Except.ok (rs, _) => rs
  | Except.error _ => []

/-- The final state of a resolver result. -/
def resultSt : Except (String × St) (RuleSet × St) → St
  | Except.ok (_, st) => st
  | Except.error (_, st) => st

/-- Whether the resolver run raised (propagated an exception). -/
def resultRaises : Except (String × St) (RuleSet × St) → Bool
  | Except.error _ => true
  | Except.ok _ => false

/-- Number of no-rules warnings in an output log (either the
empty-rule-set warning block or the no-rules-file line). -/
def warnCount (l : List String) : Nat :=
  (l.filter (fun s => s == noRulesWarnMsg || s == noRulesFoundMsg)).length

/-- Warnings added between two states of the output log. -/
def newWarnings (st st' : St) : Nat := warnCount st'.out - warnCount st.out

/-- Number of lines of a content (split at newlines) that start with the
`merchants_file:` pointer key. -/
def splitLinesChars : List Char → List (List Char)
  | [] => [[]]
  | c :: t =>
    if c = '\n' then [] :: splitLinesChars t
    else
      match splitLinesChars t with
      | [] => [[c]]
      | l :: ls => (c :: l) :: ls

/-- Number of pointer lines (lines starting with `merchants_file:`) in a
settings content. -/
def pointerLineCount (c : String) : Nat :=
  ((splitLinesChars c.data).filter (fun l => listStartsWith ("merchants_file:".data) l)).length

/-- The version denoted by a marker-file node: the parsed integer of a file
content, 0 for anything else (mirrors the soft-failure reading contract). -/
def markerVal : Option Node → Int
  | some (Node.file c) => (parseInt (pyStrip c)).getD 0
  | _ => 0

/-! Concrete environments and filesystems used to instantiate the theorems
on closed inputs. -/

/-- A concrete base environment for closed instantiations. -/
def baseEnv : Env where
  cwd := ["root"]
  stdinTTY := true
  stdoutTTY := true
  answer := some ""
  answer2 := some "y"
  failMkdir := fun _ => false
  failMove := fun _ _ => false
  failWrite := fun _ => false
  failRead := fun _ => false
  parseFails := fun _ => false
  rulesOfContent := fun c => if c = "rows" then [("MATCH", "Category")] else []
  defaultRules := []
  convert := fun _ => "converted"

/-- The empty starting state for closed instantiations. -/
def emptySt : St := ⟨[], [], []⟩

/-- A filesystem whose marker file holds a negative number. -/
def fsNegMarker : FS := [(["d", ".tally-schema"], Node.file "-1\n")]

/-- A config directory holding a legacy CSV and no settings file. -/
def fsCsv : FS := [(["c"], Node.dir), (["c", "m.csv"], Node.file "rows")]

/-- Configuration metadata detecting that CSV in legacy format. -/
def cfgCsv : TallyConfig := ⟨some ["c", "m.csv"], some "csv", "first_match"⟩

/-- A config directory holding a legacy CSV whose content denotes an empty
rule set under the base environment. -/
def fsCsvEmpty : FS := [(["c"], Node.dir), (["c", "m.csv"], Node.file "x")]

/-- The base environment with a non-interactive stdout. -/
def envNoTTY : Env := { baseEnv with stdoutTTY := false }

/-- The base environment where every legacy parse fails. -/
def envParseFail : Env := { envNoTTY with parseFails := fun _ => true }

/-- The state left by the failed closed-instance layout migration (the
`tally` directory was created, then the config move failed because the
legacy config directory does not exist in the empty filesystem). -/
def c3FailSt : St :=
  ⟨[(["root", "tally"], Node.dir)], [movingConfigMsg],
   [layoutErrorMsg "move source missing"]⟩

/-! Helper lemmas about the filesystem model. -/

lemma lookup_cons (a : Path) (b : Node) (t : FS) (q : Path) :
    FS.lookup ((a, b) :: t) q = if a = q then some b else FS.lookup t q := rfl

lemma lookup_filter_ne (fs : FS) (p q : Path) (h : q ≠ p) :
    FS.lookup (fs.filter (fun e => decide (e.1 ≠ p))) q = fs.lookup q := by
  induction fs with
  | nil => rfl
  | cons e t ih =>
    obtain ⟨a, b⟩ := e
    by_cases hap : a = p
    · subst hap
      rw [List.filter_cons_of_neg (by simp), ih, lookup_cons, if_neg (Ne.symm h)]
    · rw [List.filter_cons_of_pos (by simpa using hap), lookup_cons, lookup_cons]
      by_cases haq : a = q
      · simp [haq]
      · rw [if_neg haq, if_neg haq]
        exact ih

lemma lookup_insert_self (fs : FS) (p : Path) (n : Node) :
    (FS.insert fs p n).lookup p = some n := by
  simp [FS.insert, lookup_cons]

lemma lookup_insert_ne (fs : FS) (p q : Path) (n : Node) (h : q ≠ p) :
    (FS.insert fs p n).lookup q = fs.lookup q := by
  simp only [FS.insert]
  rw [lookup_cons, if_neg (fun hc => h hc.symm)]
  exact lookup_filter_ne fs p q h

lemma lookup_erase_ne (fs : FS) (p q : Path) (h : q ≠ p) :
    (FS.erase fs p).lookup q = fs.lookup q := lookup_filter_ne fs p q h

lemma lookup_erase_self (fs : FS) (p : Path) :
    (FS.erase fs p).lookup p = none := by
  induction fs with
  | nil => rfl
  | cons e t ih =>
    obtain ⟨a, b⟩ := e
    simp only [FS.erase] at ih ⊢
    by_cases hap : a = p
    · subst hap
      rw [List.filter_cons_of_neg (by simp)]
      exact ih
    · rw [List.filter_cons_of_pos (by simpa using hap), lookup_cons, if_neg hap]
      exact ih

/-! Helper lemmas about path prefixes and subtree moves. -/

lemma ipp_refl (p : Path) : isPathPrefix p p = true := by
  induction p with
  | nil => rfl
  | cons a t ih => simp [isPathPrefix, ih]

lemma ipp_append_same (l p q : Path) :
    isPathPrefix (l ++ p) (l ++ q) = isPathPrefix p q := by
  induction l with
  | nil => rfl
  | cons a t ih => simp [isPathPrefix, ih]

lemma ipp_append_right (d t : Path) : isPathPrefix d (d ++ t) = true := by
  have := ipp_append_same d [] t
  simpa using this

lemma ne_of_not_ipp {r q : Path} (h : isPathPrefix r q = false) : r ≠ q := by
  intro he
  subst he
  rw [ipp_refl] at h
  exact Bool.noConfusion h

lemma eq_append_of_ipp {s q : Path} (h : isPathPrefix s q = true) :
    q = s ++ q.drop s.length := by
  induction s generalizing q with
  | nil => simp
  | cons a t ih =>
    cases q with
    | nil => exact absurd h (by simp [isPathPrefix])
    | cons b u =>
      simp only [isPathPrefix, Bool.and_eq_true, beq_iff_eq] at h
      obtain ⟨rfl, h2⟩ := h
      simpa using ih h2

lemma remap_of_not {src : Path} (dst : Path) {p : Path}
    (h : isPathPrefix src p = false) : remapPath src dst p = p := by
  simp [remapPath, h]

lemma remap_of_ipp {src : Path} (dst : Path) {p : Path}
    (h : isPathPrefix src p = true) :
    remapPath src dst p = dst ++ p.drop src.length := by
  simp [remapPath, h]

lemma ipp_of_remap_ipp {src dst p : Path} (h : isPathPrefix src p = true) :
    isPathPrefix dst (remapPath src dst p) = true := by
  rw [remap_of_ipp dst h]
  exact ipp_append_right _ _

lemma lookup_moveTree_of_not (fs : FS) (src dst q : Path)
    (hs : isPathPrefix src q = false) (hd : isPathPrefix dst q = false) :
    (FS.moveTree fs src dst).lookup q = fs.lookup q := by
  induction fs with
  | nil => rfl
  | cons e t ih =>
    obtain ⟨p, n⟩ := e
    simp only [FS.moveTree, List.map] at ih ⊢
    rw [lookup_cons, lookup_cons]
    by_cases hpq : p = q
    · subst hpq
      rw [remap_of_not dst (by exact hs)]
      simp [ih]
    · have hr : remapPath src dst p ≠ q := by
        by_cases hsp : isPathPrefix src p = true
        · intro he
          have := @ipp_of_remap_ipp src dst p hsp
          rw [he] at this
          rw [this] at hd
          exact Bool.noConfusion hd
        · rw [remap_of_not dst (by simpa using hsp)]
          exact hpq
      rw [if_neg hr, if_neg hpq]
      exact ih

lemma lookup_moveTree_src (fs : FS) (src dst q : Path)
    (hs : isPathPrefix src q = true) (hd : isPathPrefix dst q = false) :
    (FS.moveTree fs src dst).lookup q = none := by
  induction fs with
  | nil => rfl
  | cons e t ih =>
    obtain ⟨p, n⟩ := e
    simp only [FS.moveTree, List.map] at ih ⊢
    rw [lookup_cons]
    have hr : remapPath src dst p ≠ q := by
      by_cases hsp : isPathPrefix src p = true
      · intro he
        have := @ipp_of_remap_ipp src dst p hsp
        rw [he] at this
        rw [this] at hd
        exact Bool.noConfusion hd
      · rw [remap_of_not dst (by simpa using hsp)]
        intro he
        subst he
        rw [hs] at hsp
        exact hsp rfl
    rw [if_neg hr]
    exact ih

lemma lookup_moveTree_dst (fs : FS) (src dst q : Path)
    (hs : isPathPrefix src q = false) (hd : isPathPrefix dst q = true) :
    (FS.moveTree fs src dst).lookup q = fs.lookup q ∨
    (FS.moveTree fs src dst).lookup q = fs.lookup (src ++ q.drop dst.length) ∨
    (FS.moveTree fs src dst).lookup q = none := by
  induction fs with
  | nil => exact Or.inr (Or.inr rfl)
  | cons e t ih =>
    obtain ⟨p, n⟩ := e
    simp only [FS.moveTree, List.map] at ih ⊢
    rw [lookup_cons]
    by_cases hr : remapPath src dst p = q
    · by_cases hsp : isPathPrefix src p = true
      · -- the head entry was relocated onto q, so p = src ++ q.drop dst.length
        have hp : p = src ++ q.drop dst.length := by
          rw [remap_of_ipp dst hsp] at hr
          have hpe := eq_append_of_ipp hsp
          have hdrop : q.drop dst.length = p.drop src.length := by
            rw [← hr]
            simp
          rw [hdrop, ← hpe]
        refine Or.inr (Or.inl ?_)
        rw [if_pos hr, lookup_cons, if_pos hp]
      · -- the head entry was not relocated, so p = q and it also heads the rhs
        have hrm : remapPath src dst p = p := remap_of_not dst (by simpa using hsp)
        rw [hrm] at hr
        refine Or.inl ?_
        rw [hrm, if_pos hr, lookup_cons, if_pos hr]
    · -- the head entry does not land on q; show it is also skipped on the rhs
      rw [if_neg hr]
      have hpq : p ≠ q := by
        intro he
        subst he
        by_cases hsp : isPathPrefix src p = true
        · rw [hsp] at hs
          exact Bool.noConfusion hs
        · rw [remap_of_not dst (by simpa using hsp)] at hr
          exact hr rfl
      have hps : p ≠ src ++ q.drop dst.length := by
        intro he
        apply hr
        have hsp : isPathPrefix src p = true := by
          rw [he]
          exact ipp_append_right _ _
        rw [remap_of_ipp dst hsp, he, List.drop_left]
        exact (eq_append_of_ipp hd).symm
      rcases ih with h1 | h2 | h3
      · refine Or.inl ?_
        rw [h1, lookup_cons, if_neg hpq]
      · refine Or.inr (Or.inl ?_)
        rw [h2, lookup_cons, if_neg hps]
      · exact Or.inr (Or.inr h3)

lemma ipp_trans {a b c : Path} (h1 : isPathPrefix a b = true)
    (h2 : isPathPrefix b c = true) : isPathPrefix a c = true := by
  have hb := eq_append_of_ipp h1
  have hc := eq_append_of_ipp h2
  rw [hc, hb, List.append_assoc]
  exact ipp_append_right _ _

/-! Helper lemmas about the filesystem primitives. -/

lemma doMakedirs_err_stable {env : Env} {st : St} {p : Path} {e : String}
    (h : doMakedirs env st p = Except.error e) (st₂ : St) (hfs : st₂.fs = st.fs) :
    doMakedirs env st₂ p = Except.error e := by
  unfold doMakedirs at h ⊢
  rw [hfs]
  by_cases hf : env.failMkdir p
  · simpa [hf] using h
  · rw [if_neg hf] at h ⊢
    cases hl : st.fs.lookup p with
    | none => rw [hl] at h; exact Except.noConfusion h
    | some n =>
      cases n with
      | dir => rw [hl] at h; exact Except.noConfusion h
      | file c => rw [hl] at h; exact h

lemma doMakedirs_ok_props {env : Env} {st st' : St} {p : Path}
    (h : doMakedirs env st p = Except.ok st') :
    st'.fs.lookup p = some Node.dir ∧ env.failMkdir p = false ∧
    (∀ q, q ≠ p → st'.fs.lookup q = st.fs.lookup q) ∧
    st'.out = st.out ∧ st'.err = st.err := by
  unfold doMakedirs at h
  by_cases hf : env.failMkdir p
  · simp [hf] at h
  · rw [if_neg hf] at h
    cases hl : st.fs.lookup p with
    | none =>
      rw [hl] at h
      cases h
      refine ⟨lookup_insert_self _ _ _, by simpa using hf,
        fun q hq => lookup_insert_ne _ _ _ _ hq, rfl, rfl⟩
    | some n =>
      cases n with
      | dir =>
        rw [hl] at h
        cases h
        exact ⟨hl, by simpa using hf, fun q _ => rfl, rfl, rfl⟩
      | file c => rw [hl] at h; exact Except.noConfusion h

lemma doMakedirs_of_dir {env : Env} {st : St} {p : Path}
    (hf : env.failMkdir p = false) (hl : st.fs.lookup p = some Node.dir) :
    doMakedirs env st p = Except.ok st := by
  unfold doMakedirs
  simp [hf, hl]

lemma doMove_err_stable {env : Env} {st : St} {src dst : Path} {e : String}
    (h : doMove env st src dst = Except.error e) (st₂ : St) (hfs : st₂.fs = st.fs) :
    doMove env st₂ src dst = Except.error e := by
  unfold doMove at h ⊢
  rw [hfs]
  by_cases hf : env.failMove src dst
  · simpa [hf] using h
  · rw [if_neg hf] at h ⊢
    cases hs : st.fs.lookup src with
    | none => rw [hs] at h; exact h
    | some n =>
      rw [hs] at h
      cases n with
      | file c =>
        cases hd : st.fs.lookup dst with
        | none => rw [hd] at h; exact Except.noConfusion h
        | some m =>
          rw [hd] at h
          cases m with
          | dir =>
            cases he : st.fs.lookup (dst ++ [basename src]) with
            | some v => rw [he] at h; exact h
            | none => rw [he] at h; exact Except.noConfusion h
          | file c2 => exact Except.noConfusion h
      | dir =>
        cases hd : st.fs.lookup dst with
        | none => rw [hd] at h; exact Except.noConfusion h
        | some m =>
          rw [hd] at h
          cases m with
          | dir =>
            cases he : st.fs.lookup (dst ++ [basename src]) with
            | some v => rw [he] at h; exact h
            | none => rw [he] at h; exact Except.noConfusion h
          | file c2 => exact h

lemma doMove_src_missing {env : Env} {st : St} {src dst : Path}
    (h : st.fs.lookup src = none) : ∃ e, doMove env st src dst = Except.error e := by
  unfold doMove
  by_cases hf : env.failMove src dst
  · exact ⟨"move io error", by simp [hf]⟩
  · exact ⟨"move source missing", by simp [hf, h]⟩

lemma doMove_ok_props {env : Env} {st st' : St} {src dst : Path}
    (h : doMove env st src dst = Except.ok st') :
    (∀ q, isPathPrefix src q = false → isPathPrefix dst q = false →
       st'.fs.lookup q = st.fs.lookup q) ∧
    (isPathPrefix dst src = false → st'.fs.lookup src = none) ∧
    st'.out = st.out ∧ st'.err = st.err := by
  unfold doMove at h
  by_cases hf : env.failMove src dst
  · simp [hf] at h
  · rw [if_neg hf] at h
    cases hs : st.fs.lookup src with
    | none => rw [hs] at h; exact Except.noConfusion h
    | some n =>
      rw [hs] at h
      cases n with
      | file c =>
        cases hd : st.fs.lookup dst with
        | none =>
          rw [hd] at h
          cases h
          refine ⟨?_, ?_, rfl, rfl⟩
          · intro q hsq hdq
            show ((st.fs.erase src).insert dst (Node.file c)).lookup q = _
            rw [lookup_insert_ne _ _ _ _ (ne_of_not_ipp hdq).symm,
              lookup_erase_ne _ _ _ (ne_of_not_ipp hsq).symm]
          · intro hds
            show ((st.fs.erase src).insert dst (Node.file c)).lookup src = _
            rw [lookup_insert_ne _ _ _ _ (ne_of_not_ipp hds).symm, lookup_erase_self]
        | some m =>
          rw [hd] at h
          cases m with
          | dir =>
            cases he : st.fs.lookup (dst ++ [basename src]) with
            | some v => rw [he] at h; exact Except.noConfusion h
            | none =>
              rw [he] at h
              cases h
              refine ⟨?_, ?_, rfl, rfl⟩
              · intro q hsq hdq
                have hq2 : q ≠ dst ++ [basename src] := by
                  intro hqe
                  rw [hqe, ipp_append_right] at hdq
                  exact Bool.noConfusion hdq
                show ((st.fs.erase src).insert (dst ++ [basename src]) (Node.file c)).lookup q = _
                rw [lookup_insert_ne _ _ _ _ hq2,
                  lookup_erase_ne _ _ _ (ne_of_not_ipp hsq).symm]
              · intro hds
                have hs2 : src ≠ dst ++ [basename src] := by
                  intro hse
                  have hdp : isPathPrefix dst src = true := by
                    rw [hse]; exact ipp_append_right _ _
                  rw [hdp] at hds
                  exact Bool.noConfusion hds
                show ((st.fs.erase src).insert (dst ++ [basename src]) (Node.file c)).lookup src = _
                rw [lookup_insert_ne _ _ _ _ hs2, lookup_erase_self]
          | file c2 =>
            cases h
            refine ⟨?_, ?_, rfl, rfl⟩
            · intro q hsq hdq
              show ((st.fs.erase src).insert dst (Node.file c)).lookup q = _
              rw [lookup_insert_ne _ _ _ _ (ne_of_not_ipp hdq).symm,
                lookup_erase_ne _ _ _ (ne_of_not_ipp hsq).symm]
            · intro hds
              show ((st.fs.erase src).insert dst (Node.file c)).lookup src = _
              rw [lookup_insert_ne _ _ _ _ (ne_of_not_ipp hds).symm, lookup_erase_self]
      | dir =>
        cases hd : st.fs.lookup dst with
        | none =>
          rw [hd] at h
          cases h
          refine ⟨?_, ?_, rfl, rfl⟩
          · intro q hsq hdq
            exact lookup_moveTree_of_not _ _ _ _ hsq hdq
          · intro hds
            exact lookup_moveTree_src _ _ _ _ (ipp_refl src) hds
        | some m =>
          rw [hd] at h
          cases m with
          | dir =>
            cases he : st.fs.lookup (dst ++ [basename src]) with
            | some v => rw [he] at h; exact Except.noConfusion h
            | none =>
              rw [he] at h
              cases h
              refine ⟨?_, ?_, rfl, rfl⟩
              · intro q hsq hdq
                refine lookup_moveTree_of_not _ _ _ _ hsq ?_
                by_cases hdq2 : isPathPrefix (dst ++ [basename src]) q = true
                · exact absurd (ipp_trans (ipp_append_right dst [basename src]) hdq2)
                    (by rw [hdq]; exact fun hc => Bool.noConfusion hc)
                · simpa using hdq2
              · intro hds
                refine lookup_moveTree_src _ _ _ _ (ipp_refl src) ?_
                by_cases hds2 : isPathPrefix (dst ++ [basename src]) src = true
                · exact absurd (ipp_trans (ipp_append_right dst [basename src]) hds2)
                    (by rw [hds]; exact fun hc => Bool.noConfusion hc)
                · simpa using hds2
          | file c2 => exact Except.noConfusion h

lemma doWrite_ok {env : Env} {st st' : St} {p : Path} {c : String}
    (h : doWrite env st p c = Except.ok st') :
    st'.fs = st.fs.insert p (Node.file c) ∧ st'.out = st.out ∧ st'.err = st.err := by
  unfold doWrite at h
  by_cases hf : env.failWrite p
  · simp [hf] at h
  · rw [if_neg hf] at h
    cases hl : st.fs.lookup p with
    | none =>
      rw [hl] at h
      cases hl2 : st.fs.lookup (dirname p) with
      | none => rw [hl2] at h; cases h; exact ⟨rfl, rfl, rfl⟩
      | some m =>
        rw [hl2] at h
        cases m with
        | dir => cases h; exact ⟨rfl, rfl, rfl⟩
        | file c2 => exact Except.noConfusion h
    | some n =>
      rw [hl] at h
      cases n with
      | dir => exact Except.noConfusion h
      | file c0 =>
        cases hl2 : st.fs.lookup (dirname p) with
        | none => rw [hl2] at h; cases h; exact ⟨rfl, rfl, rfl⟩
        | some m =>
          rw [hl2] at h
          cases m with
          | dir => cases h; exact ⟨rfl, rfl, rfl⟩
          | file c2 => exact Except.noConfusion h

lemma doWrite_err_stable {env : Env} {st : St} {p : Path} {c : String} {e : String}
    (h : doWrite env st p c = Except.error e) (st₂ : St) (hfs : st₂.fs = st.fs) :
    doWrite env st₂ p c = Except.error e := by
  unfold doWrite at h ⊢
  rw [hfs]
  by_cases hfw : env.failWrite p
  · simpa [hfw] using h
  · rw [if_neg hfw] at h ⊢
    cases hl : st.fs.lookup p with
    | some n =>
      rw [hl] at h
      cases n with
      | dir => exact h
      | file c0 =>
        cases hl2 : st.fs.lookup (dirname p) with
        | some m =>
          rw [hl2] at h
          cases m with
          | file c2 => exact h
          | dir => exact Except.noConfusion h
        | none => rw [hl2] at h; exact Except.noConfusion h
    | none =>
      rw [hl] at h
      cases hl2 : st.fs.lookup (dirname p) with
      | some m =>
        rw [hl2] at h
        cases m with
        | file c2 => exact h
        | dir => exact Except.noConfusion h
      | none => rw [hl2] at h; exact Except.noConfusion h

lemma basename_concat (l : List String) (a : String) : basename (l ++ [a]) = a :=
  List.getLastD_concat _ _ _

lemma dirname_concat (l : List String) (a : String) : dirname (l ++ [a]) = l :=
  List.dropLast_concat

lemma concat_ne_self (l : Path) (a : String) : l ++ [a] ≠ l := by
  intro h
  have := congrArg List.length h
  simp at this

/-! Helper lemmas about the steps of the layout migration. -/

lemma moveSubdirStep_err_stable {env : Env} {st : St} {td : Path} {s : String} {e : String}
    (h : moveSubdirStep env st td s = Except.error e) (st₂ : St) (hfs : st₂.fs = st.fs) :
    moveSubdirStep env st₂ td s = Except.error e := by
  unfold moveSubdirStep at h ⊢
  rw [hfs]
  cases hl : st.fs.lookup (env.cwd ++ [s]) with
  | none => rw [hl] at h; exact Except.noConfusion h
  | some n =>
    rw [hl] at h
    cases n with
    | file c => exact Except.noConfusion h
    | dir =>
      exact doMove_err_stable h _ hfs

lemma moveSubdirStep_ok_props {env : Env} {st st' : St} {td : Path} {s : String}
    (h : moveSubdirStep env st td s = Except.ok st') :
    (∀ q, isPathPrefix (env.cwd ++ [s]) q = false → isPathPrefix (td ++ [s]) q = false →
       st'.fs.lookup q = st.fs.lookup q) ∧ st'.err = st.err := by
  unfold moveSubdirStep at h
  cases hl : st.fs.lookup (env.cwd ++ [s]) with
  | none =>
    rw [hl] at h
    cases h
    exact ⟨fun q _ _ => rfl, rfl⟩
  | some n =>
    rw [hl] at h
    cases n with
    | file c =>
      cases h
      exact ⟨fun q _ _ => rfl, rfl⟩
    | dir =>
      obtain ⟨hpres, _, _, herr⟩ := doMove_ok_props h
      exact ⟨fun q h1 h2 => hpres q h1 h2, herr⟩

/-- If the tally directory exists and the legacy config path is gone, a
re-run of the execution phase fails at the config move without mutating the
filesystem. -/
lemma perform_refail {env : Env} (st₂ : St)
    (hmk : env.failMkdir (env.cwd ++ ["tally"]) = false)
    (htl : st₂.fs.lookup (env.cwd ++ ["tally"]) = some Node.dir)
    (hgone : st₂.fs.lookup (env.cwd ++ ["config"]) = none) :
    (performMigration env st₂ (env.cwd ++ ["config"])).1 = none ∧
    ((performMigration env st₂ (env.cwd ++ ["config"])).2).fs = st₂.fs := by
  unfold performMigration
  dsimp only
  rw [doMakedirs_of_dir hmk htl]
  dsimp only
  obtain ⟨e, he⟩ := @doMove_src_missing env (pushOut st₂ movingConfigMsg)
    (env.cwd ++ ["config"]) ((env.cwd ++ ["tally"]) ++ ["config"]) hgone
  rw [he]
  exact ⟨rfl, rfl⟩

/-- A successful execution phase returns the new config location, with the
schema marker written inside it and nothing on stderr. -/
lemma perform_some_props {env : Env} {st st' : St} {d p : Path}
    (h : performMigration env st d = (some p, st')) :
    p = env.cwd ++ ["tally", "config"] ∧
    st'.fs.lookup (p ++ [schemaMarkerName]) = some (Node.file "1\n") ∧
    st'.err = st.err := by
  unfold performMigration at h
  dsimp only at h
  cases h1 : doMakedirs env st (env.cwd ++ ["tally"]) with
  | error e => rw [h1] at h; exact Prod.noConfusion h (fun h _ => Option.noConfusion h)
  | ok st1 =>
    rw [h1] at h
    dsimp only at h
    cases h2 : doMove env (pushOut st1 movingConfigMsg) d ((env.cwd ++ ["tally"]) ++ ["config"]) with
    | error e => rw [h2] at h; exact Prod.noConfusion h (fun h _ => Option.noConfusion h)
    | ok st2 =>
      rw [h2] at h
      dsimp only at h
      cases h3 : moveSubdirStep env st2 (env.cwd ++ ["tally"]) "data" with
      | error e => rw [h3] at h; exact Prod.noConfusion h (fun h _ => Option.noConfusion h)
      | ok st3 =>
        rw [h3] at h
        dsimp only at h
        cases h4 : moveSubdirStep env st3 (env.cwd ++ ["tally"]) "output" with
        | error e => rw [h4] at h; exact Prod.noConfusion h (fun h _ => Option.noConfusion h)
        | ok st4 =>
          rw [h4] at h
          dsimp only at h
          cases h5 : doWrite env st4 (((env.cwd ++ ["tally"]) ++ ["config"]) ++ [schemaMarkerName]) "1\n" with
          | error e => rw [h5] at h; exact Prod.noConfusion h (fun h _ => Option.noConfusion h)
          | ok st5 =>
            rw [h5] at h
            dsimp only at h
            injection h with hp0 hst
            injection hp0 with hp
            obtain ⟨hfs5, _, herr5⟩ := doWrite_ok h5
            obtain ⟨_, _, _, _, herr1⟩ := doMakedirs_ok_props h1
            obtain ⟨_, _, _, herr2⟩ := doMove_ok_props h2
            obtain ⟨_, herr3⟩ := moveSubdirStep_ok_props h3
            obtain ⟨_, herr4⟩ := moveSubdirStep_ok_props h4
            refine ⟨by rw [← hp]; simp, ?_, ?_⟩
            · rw [← hst, ← hp]
              show st5.fs.lookup _ = _
              rw [hfs5]
              exact lookup_insert_self _ _ _
            · rw [← hst]
              show st5.err = st.err
              rw [herr5, herr4, herr3, herr2]
              show st1.err = st.err
              rw [herr1]

/-- A declined-or-failed execution phase leaves a state from which a second
execution attempt fails cleanly: it returns no new location and does not
mutate the filesystem at all (the first failed attempt may have mutated it;
the second attempt either fails at the same step on unchanged state, or
fails at the config move because the config directory was already moved). -/
lemma perform_none_refail {env : Env} {st st' : St}
    (h : performMigration env st (env.cwd ++ ["config"]) = (none, st'))
    (st₂ : St) (hfs : st₂.fs = st'.fs) :
    (performMigration env st₂ (env.cwd ++ ["config"])).1 = none ∧
    ((performMigration env st₂ (env.cwd ++ ["config"])).2).fs = st₂.fs := by
  unfold performMigration at h
  dsimp only at h
  cases h1 : doMakedirs env st (env.cwd ++ ["tally"]) with
  | error e =>
    rw [h1] at h
    dsimp only at h
    injection h with _ hst
    subst hst
    have hfs2 : st₂.fs = st.fs := hfs
    unfold performMigration
    dsimp only
    rw [doMakedirs_err_stable h1 st₂ hfs2]
    exact ⟨rfl, rfl⟩
  | ok st1 =>
    rw [h1] at h
    dsimp only at h
    obtain ⟨htl1, hmk, _, _, _⟩ := doMakedirs_ok_props h1
    cases h2 : doMove env (pushOut st1 movingConfigMsg) (env.cwd ++ ["config"])
        ((env.cwd ++ ["tally"]) ++ ["config"]) with
    | error e =>
      rw [h2] at h
      dsimp only at h
      injection h with _ hst
      subst hst
      have hfs2 : st₂.fs = st1.fs := hfs
      unfold performMigration
      dsimp only
      rw [doMakedirs_of_dir hmk (by rw [hfs2]; exact htl1)]
      dsimp only
      rw [doMove_err_stable h2 (pushOut st₂ movingConfigMsg) (by exact hfs2)]
      exact ⟨rfl, rfl⟩
    | ok st2 =>
      rw [h2] at h
      dsimp only at h
      obtain ⟨hpres2, hsrc2, _, _⟩ := doMove_ok_props h2
      have hgone2 : st2.fs.lookup (env.cwd ++ ["config"]) = none := by
        rw [hsrc2 (by rw [List.append_assoc, ipp_append_same]; decide)]
      have htl2 : st2.fs.lookup (env.cwd ++ ["tally"]) = some Node.dir := by
        rw [hpres2 _ (by rw [ipp_append_same]; decide)
          (by rw [List.append_assoc, ipp_append_same]; decide)]
        exact htl1
      cases h3 : moveSubdirStep env st2 (env.cwd ++ ["tally"]) "data" with
      | error e =>
        rw [h3] at h
        dsimp only at h
        injection h with _ hst
        subst hst
        have hfs2 : st₂.fs = st2.fs := hfs
        exact perform_refail st₂ hmk (by rw [hfs2]; exact htl2) (by rw [hfs2]; exact hgone2)
      | ok st3 =>
        rw [h3] at h
        dsimp only at h
        obtain ⟨hpres3, _⟩ := moveSubdirStep_ok_props h3
        have hgone3 : st3.fs.lookup (env.cwd ++ ["config"]) = none := by
          rw [hpres3 _ (by rw [ipp_append_same]; decide)
            (by rw [List.append_assoc, ipp_append_same]; decide)]
          exact hgone2
        have htl3 : st3.fs.lookup (env.cwd ++ ["tally"]) = some Node.dir := by
          rw [hpres3 _ (by rw [ipp_append_same]; decide)
            (by rw [List.append_assoc, ipp_append_same]; decide)]
          exact htl2
        cases h4 : moveSubdirStep env st3 (env.cwd ++ ["tally"]) "output" with
        | error e =>
          rw [h4] at h
          dsimp only at h
          injection h with _ hst
          subst hst
          have hfs2 : st₂.fs = st3.fs := hfs
          exact perform_refail st₂ hmk (by rw [hfs2]; exact htl3) (by rw [hfs2]; exact hgone3)
        | ok st4 =>
          rw [h4] at h
          dsimp only at h
          obtain ⟨hpres4, _⟩ := moveSubdirStep_ok_props h4
          have hgone4 : st4.fs.lookup (env.cwd ++ ["config"]) = none := by
            rw [hpres4 _ (by rw [ipp_append_same]; decide)
              (by rw [List.append_assoc, ipp_append_same]; decide)]
            exact hgone3
          have htl4 : st4.fs.lookup (env.cwd ++ ["tally"]) = some Node.dir := by
            rw [hpres4 _ (by rw [ipp_append_same]; decide)
              (by rw [List.append_assoc, ipp_append_same]; decide)]
            exact htl3
          cases h5 : doWrite env st4 (((env.cwd ++ ["tally"]) ++ ["config"]) ++ [schemaMarkerName]) "1\n" with
          | error e =>
            rw [h5] at h
            dsimp only at h
            injection h with _ hst
            subst hst
            have hfs2 : st₂.fs = st4.fs := hfs
            exact perform_refail st₂ hmk (by rw [hfs2]; exact htl4) (by rw [hfs2]; exact hgone4)
          | ok st5 =>
            rw [h5] at h
            dsimp only at h
            injection h with hcontra _
            exact Option.noConfusion hcontra

/-! Helper lemmas about `migrate_v0_to_v1` and `run_migrations`. -/

lemma path_eq_of_base_dir {d cwd : Path} (hb : basename d = "config")
    (hd : dirname d = cwd) : d = cwd ++ ["config"] := by
  have hne : d ≠ [] := by
    intro he
    rw [he] at hb
    exact absurd hb (by decide)
  have : d.dropLast ++ [d.getLastD ""] = d := by
    cases d with
    | nil => exact absurd rfl hne
    | cons a t =>
      rw [List.getLastD_eq_getLast?, List.getLast?_eq_getLast _ hne, Option.getD_some]
      exact List.dropLast_append_getLast hne
  rw [← this]
  unfold basename at hb
  unfold dirname at hd
  rw [hb, hd]

/-- The layout migration declines, leaving the state untouched, when its
directory-shape preconditions fail. -/
lemma migrate_decline {env : Env} (st : St) {d : Path} (skip : Bool)
    (h : basename d ≠ "config" ∨ dirname d ≠ env.cwd) :
    migrate_v0_to_v1 env st d skip = (none, st) := by
  unfold migrate_v0_to_v1
  by_cases hb : basename d ≠ "config"
  · rw [if_pos hb]
  · rw [if_neg hb]
    have hd : dirname d ≠ env.cwd := h.resolve_left (fun hc => hb hc)
    rw [if_pos hd]

/-- A run of the layout migration that returned no new location leaves a
state from which a second run again returns no new location and performs no
filesystem mutation. -/
lemma migrate_none_refail {env : Env} {st st' : St} {d : Path} {skip : Bool}
    (h : migrate_v0_to_v1 env st d skip = (none, st'))
    (st₂ : St) (hfs : st₂.fs = st'.fs) :
    (migrate_v0_to_v1 env st₂ d skip).1 = none ∧
    ((migrate_v0_to_v1 env st₂ d skip).2).fs = st₂.fs := by
  unfold migrate_v0_to_v1 at h ⊢
  by_cases hb : basename d ≠ "config"
  · rw [if_pos hb]
    exact ⟨rfl, rfl⟩
  · rw [if_neg hb] at h ⊢
    by_cases hd : dirname d ≠ env.cwd
    · rw [if_pos hd]
      exact ⟨rfl, rfl⟩
    · rw [if_neg hd] at h ⊢
      have hdir : d = env.cwd ++ ["config"] :=
        path_eq_of_base_dir (not_not.mp (fun hc => hb hc)) (not_not.mp hd)
      by_cases hs : skip
      · rw [if_pos hs] at h ⊢
        rw [hdir] at h ⊢
        exact perform_none_refail h st₂ hfs
      · rw [if_neg hs] at h ⊢
        by_cases ht : env.stdinTTY = false
        · rw [if_pos ht]
          exact ⟨rfl, rfl⟩
        · rw [if_neg ht] at h ⊢
          dsimp only at h ⊢
          cases ha : env.answer with
          | none =>
            rw [ha] at h
            exact ⟨rfl, rfl⟩
          | some r =>
            rw [ha] at h
            dsimp only at h ⊢
            by_cases hn : pyLower (pyStrip r) = "n"
            · rw [if_pos hn]
              exact ⟨rfl, rfl⟩
            · rw [if_neg hn] at h ⊢
              rw [hdir] at h ⊢
              exact perform_none_refail h (pushOut st₂ layoutPromptMsg) hfs

/-- A run of the layout migration that returned a new location returned the
new config path, with the schema marker freshly written inside it and
nothing added to stderr. -/
lemma migrate_some_props {env : Env} {st st' : St} {d p : Path} {skip : Bool}
    (h : migrate_v0_to_v1 env st d skip = (some p, st')) :
    p = env.cwd ++ ["tally", "config"] ∧
    st'.fs.lookup (p ++ [schemaMarkerName]) = some (Node.file "1\n") ∧
    st'.err = st.err := by
  unfold migrate_v0_to_v1 at h
  by_cases hb : basename d ≠ "config"
  · rw [if_pos hb] at h
    exact Prod.noConfusion h (fun h _ => Option.noConfusion h)
  · rw [if_neg hb] at h
    by_cases hd : dirname d ≠ env.cwd
    · rw [if_pos hd] at h
      exact Prod.noConfusion h (fun h _ => Option.noConfusion h)
    · rw [if_neg hd] at h
      by_cases hs : skip
      · rw [if_pos hs] at h
        exact perform_some_props h
      · rw [if_neg hs] at h
        by_cases ht : env.stdinTTY = false
        · rw [if_pos ht] at h
          exact Prod.noConfusion h (fun h _ => Option.noConfusion h)
        · rw [if_neg ht] at h
          dsimp only at h
          cases ha : env.answer with
          | none =>
            rw [ha] at h
            exact Prod.noConfusion h (fun h _ => Option.noConfusion h)
          | some r =>
            rw [ha] at h
            dsimp only at h
            by_cases hn : pyLower (pyStrip r) = "n"
            · rw [if_pos hn] at h
              exact Prod.noConfusion h (fun h _ => Option.noConfusion h)
            · rw [if_neg hn] at h
              obtain ⟨hp, hm, he⟩ := perform_some_props h
              exact ⟨hp, hm, he⟩

/-- The pipeline is a no-op when the schema version is current. -/
lemma run_migrations_current {env : Env} (st : St) (d : Path) (skip : Bool)
    (h : get_schema_version env st.fs d ≥ SCHEMA_VERSION) :
    run_migrations env st d skip = (d, st) := by
  unfold run_migrations
  dsimp only
  rw [if_pos h]

/-- The pipeline defers to the layout migration when the schema version is
behind. -/
lemma run_migrations_behind {env : Env} (st : St) (d : Path) (skip : Bool)
    (h : ¬ get_schema_version env st.fs d ≥ SCHEMA_VERSION) :
    run_migrations env st d skip =
      (match migrate_v0_to_v1 env st d skip with
       | (some p, st') => (p, st')
       | (none, st') => (d, st')) := by
  unfold run_migrations
  dsimp only
  rw [if_neg h, if_pos (by exact lt_of_not_ge h)]

/-- Reading a freshly stamped marker yields version 1 (or, if the read
fails, version 0). -/
lemma version_of_marker_one {env : Env} {fs : FS} {d : Path}
    (h : fs.lookup (d ++ [schemaMarkerName]) = some (Node.file "1\n")) :
    get_schema_version env fs d = if env.failRead (d ++ [schemaMarkerName]) then 0 else 1 := by
  unfold get_schema_version
  dsimp only
  rw [h]
  unfold doRead
  by_cases hr : env.failRead (d ++ [schemaMarkerName])
  · rw [if_pos hr, if_pos hr]
  · rw [if_neg hr, if_neg hr, h]
    decide

/-- C2: Running the migration pipeline (`run_migrations`) twice in sequence
on the same configuration directory is idempotent: the second run, invoked
on the location returned by the first (the engine returns the possibly
relocated location and callers re-resolve from it), performs no filesystem
mutation and returns the same final configuration-directory location as the
first run. -/
theorem C2_run_migrations_idempotent (env : Env) (st : St) (dir : Path) (skip : Bool) :
    (run_migrations env (run_migrations env st dir skip).2
        (run_migrations env st dir skip).1 skip).1 = (run_migrations env st dir skip).1 ∧
    ((run_migrations env (run_migrations env st dir skip).2
        (run_migrations env st dir skip).1 skip).2).fs
      = ((run_migrations env st dir skip).2).fs := by
  by_cases hv : get_schema_version env st.fs dir ≥ SCHEMA_VERSION
  · rw [run_migrations_current st dir skip hv]
    dsimp only
    rw [run_migrations_current st dir skip hv]
    exact ⟨rfl, rfl⟩
  · rw [run_migrations_behind st dir skip hv]
    cases hm : migrate_v0_to_v1 env st dir skip with
    | mk o st1 =>
      cases o with
      | some p =>
        dsimp only
        obtain ⟨hp, hmark, _⟩ := migrate_some_props hm
        by_cases hr : env.failRead (p ++ [schemaMarkerName])
        · have hv2 : ¬ get_schema_version env st1.fs p ≥ SCHEMA_VERSION := by
            rw [version_of_marker_one hmark, if_pos hr]
            decide
          rw [run_migrations_behind st1 p skip hv2]
          have hd : dirname p ≠ env.cwd := by
            rw [hp, show env.cwd ++ ["tally", "config"]
              = (env.cwd ++ ["tally"]) ++ ["config"] by simp, dirname_concat]
            exact concat_ne_self env.cwd "tally"
          rw [migrate_decline st1 skip (Or.inr hd)]
          exact ⟨rfl, rfl⟩
        · have hv2 : get_schema_version env st1.fs p ≥ SCHEMA_VERSION := by
            rw [version_of_marker_one hmark, if_neg hr]
            decide
          rw [run_migrations_current st1 p skip hv2]
          exact ⟨rfl, rfl⟩
      | none =>
        dsimp only
        by_cases hv2 : get_schema_version env st1.fs dir ≥ SCHEMA_VERSION
        · rw [run_migrations_current st1 dir skip hv2]
          exact ⟨rfl, rfl⟩
        · rw [run_migrations_behind st1 dir skip hv2]
          obtain ⟨h1, h2⟩ := migrate_none_refail hm st1 rfl
          cases hm2 : migrate_v0_to_v1 env st1 dir skip with
          | mk o2 st2 =>
            cases o2 with
            | some q =>
              rw [hm2] at h1
              simp at h1
            | none =>
              rw [hm2] at h2
              dsimp only
              exact ⟨rfl, h2⟩

/-- C5: For every directory whose base name is not exactly `config` or whose
parent is not the current working directory, the v0-to-v1 layout migration
silently declines: it performs no filesystem mutation, raises no error, and
`run_migrations` returns the input directory unchanged. -/
theorem C5_layout_precondition_decline (env : Env) (st : St) (dir : Path) (skip : Bool)
    (h : basename dir ≠ "config" ∨ dirname dir ≠ env.cwd) :
    migrate_v0_to_v1 env st dir skip = (none, st) ∧
    run_migrations env st dir skip = (dir, st) := by
  refine ⟨migrate_decline st skip h, ?_⟩
  by_cases hv : get_schema_version env st.fs dir ≥ SCHEMA_VERSION
  · exact run_migrations_current st dir skip hv
  · rw [run_migrations_behind st dir skip hv, migrate_decline st skip h]

theorem C5_witness :
    (basename ["home", "cfg"] ≠ "config" ∨ dirname ["home", "cfg"] ≠ baseEnv.cwd) ∧
    migrate_v0_to_v1 baseEnv emptySt ["home", "cfg"] false = (none, emptySt) ∧
    run_migrations baseEnv emptySt ["home", "cfg"] false = (["home", "cfg"], emptySt) :=
  ⟨Or.inl (by decide),
   (C5_layout_precondition_decline baseEnv emptySt ["home", "cfg"] false (Or.inl (by decide))).1,
   (C5_layout_precondition_decline baseEnv emptySt ["home", "cfg"] false (Or.inl (by decide))).2⟩

/-- C7 counterexample: a marker file containing `-1` is numeric, so
`get_schema_version` returns the negative integer `-1`; the claim that the
result is always non-negative fails on this input. -/
theorem C7_counterexample :
    get_schema_version baseEnv fsNegMarker ["d"] = -1 ∧
    ¬ (0 : Int) ≤ get_schema_version baseEnv fsNegMarker ["d"] := by
  exact ⟨by decide, by decide⟩

/-- C7 (amended): `get_schema_version` is total (never raises), returns 0
whenever the marker file is absent, unreadable (a failed read or a
directory entry), or non-numeric, and otherwise returns the parsed marker
value, which may be negative when the marker holds a negative number. -/
theorem C7_get_schema_version_soft (env : Env) (fs : FS) (d : Path) :
    (fs.lookup (d ++ [schemaMarkerName]) = none → get_schema_version env fs d = 0) ∧
    (env.failRead (d ++ [schemaMarkerName]) = true → get_schema_version env fs d = 0) ∧
    (fs.lookup (d ++ [schemaMarkerName]) = some Node.dir → get_schema_version env fs d = 0) ∧
    (∀ c, fs.lookup (d ++ [schemaMarkerName]) = some (Node.file c) →
       parseInt (pyStrip c) = none → get_schema_version env fs d = 0) ∧
    (∀ c n, fs.lookup (d ++ [schemaMarkerName]) = some (Node.file c) →
       parseInt (pyStrip c) = some n → env.failRead (d ++ [schemaMarkerName]) = false →
       get_schema_version env fs d = n) := by
  refine ⟨?_, ?_, ?_, ?_, ?_⟩
  · intro h
    unfold get_schema_version
    dsimp only
    rw [h]
  · intro h
    unfold get_schema_version doRead
    dsimp only
    cases hl : fs.lookup (d ++ [schemaMarkerName]) with
    | none => rfl
    | some n => rw [if_pos h]
  · intro h
    unfold get_schema_version doRead
    dsimp only
    rw [h]
    by_cases hr : env.failRead (d ++ [schemaMarkerName])
    · rw [if_pos hr]
    · rw [if_neg hr]
  · intro c h hp
    unfold get_schema_version doRead
    dsimp only
    rw [h]
    by_cases hr : env.failRead (d ++ [schemaMarkerName])
    · rw [if_pos hr]
    · rw [if_neg hr]
      dsimp only
      rw [hp]
  · intro c n h hp hr
    unfold get_schema_version doRead
    dsimp only
    rw [h, if_neg (by rw [hr]; exact fun hc => Bool.noConfusion hc)]
    dsimp only
    rw [hp]

theorem C7_witness :
    FS.lookup fsNegMarker (["x"] ++ [schemaMarkerName]) = none ∧
    get_schema_version baseEnv fsNegMarker ["x"] = 0 :=
  ⟨by decide, (C7_get_schema_version_soft baseEnv fsNegMarker ["x"]).1 (by decide)⟩

/-- C6: With `skip_confirm` false in `migrate_v0_to_v1` (preconditions on
the directory met): without an interactive input stream it declines
silently, with no mutation of any kind; an interrupted read of the prompt
(end-of-input or user interrupt, modeled as a `none` answer) declines with
only a `Skipped.` line on stdout — the filesystem and stderr are untouched,
so it is a decline and never an error; the answer `n` (after strip and
lowercase) declines likewise; and any other answer, the empty default
included, proceeds with the migration (the run continues into the
execution phase). -/
theorem C6_confirmation_semantics (env : Env) (st : St) (dir : Path)
    (hb : basename dir = "config") (hd : dirname dir = env.cwd) :
    (env.stdinTTY = false → migrate_v0_to_v1 env st dir false = (none, st)) ∧
    (env.stdinTTY = true → env.answer = none →
       migrate_v0_to_v1 env st dir false
         = (none, pushOut (pushOut st layoutPromptMsg) layoutSkippedMsg)) ∧
    (∀ r, env.stdinTTY = true → env.answer = some r → pyLower (pyStrip r) = "n" →
       migrate_v0_to_v1 env st dir false = (none, pushOut st layoutPromptMsg)) ∧
    (∀ r, env.stdinTTY = true → env.answer = some r → pyLower (pyStrip r) ≠ "n" →
       migrate_v0_to_v1 env st dir false
         = performMigration env (pushOut st layoutPromptMsg) dir) := by
  have hb' : ¬ basename dir ≠ "config" := not_not_intro hb
  have hd' : ¬ dirname dir ≠ env.cwd := not_not_intro hd
  have hskip : ¬ ((false : Bool) = true) := by decide
  refine ⟨?_, ?_, ?_, ?_⟩
  · intro ht
    unfold migrate_v0_to_v1
    rw [if_neg hb', if_neg hd', if_neg hskip, if_pos ht]
  · intro ht ha
    unfold migrate_v0_to_v1
    rw [if_neg hb', if_neg hd', if_neg hskip,
      if_neg (by rw [ht]; exact fun hc => Bool.noConfusion hc)]
    dsimp only
    rw [ha]
  · intro r ht ha hn
    unfold migrate_v0_to_v1
    rw [if_neg hb', if_neg hd', if_neg hskip,
      if_neg (by rw [ht]; exact fun hc => Bool.noConfusion hc)]
    dsimp only
    rw [ha]
    dsimp only
    rw [if_pos hn]
  · intro r ht ha hn
    unfold migrate_v0_to_v1
    rw [if_neg hb', if_neg hd', if_neg hskip,
      if_neg (by rw [ht]; exact fun hc => Bool.noConfusion hc)]
    dsimp only
    rw [ha]
    dsimp only
    rw [if_neg hn]

theorem C6_witness :
    basename ["root", "config"] = "config" ∧
    dirname ["root", "config"] = baseEnv.cwd ∧
    pyLower (pyStrip "") ≠ "n" ∧
    migrate_v0_to_v1 baseEnv emptySt ["root", "config"] false
      = performMigration baseEnv (pushOut emptySt layoutPromptMsg) ["root", "config"] :=
  ⟨by decide, by decide, by decide,
   (C6_confirmation_semantics baseEnv emptySt ["root", "config"]
     (by decide) (by decide)).2.2.2 "" rfl rfl (by decide)⟩

/-! Helper lemmas tracking the schema marker through a failed layout
migration. -/

lemma append_singleton_inj {l : Path} {a b : String} (h : l ++ [a] = l ++ [b]) : a = b := by
  have h2 := congrArg (List.drop l.length) h
  rw [List.drop_left, List.drop_left] at h2
  simpa using h2

lemma append_singleton_ne {l : Path} {a b : String} (h : a ≠ b) : l ++ [a] ≠ l ++ [b] :=
  fun he => h (append_singleton_inj he)

lemma ne_append2_append1 (l : Path) (a b c : String) : (l ++ [a]) ++ [b] ≠ l ++ [c] := by
  intro h
  have h2 := congrArg List.length h
  simp only [List.length_append, List.length_cons, List.length_nil] at h2
  omega

lemma ne_append3_append1 (l : Path) (a b c d : String) :
    ((l ++ [a]) ++ [b]) ++ [c] ≠ l ++ [d] := by
  intro h
  have h2 := congrArg List.length h
  simp only [List.length_append, List.length_cons, List.length_nil] at h2
  omega

/-- `get_schema_version` returns the marker value of the marker entry, or 0
when the read path fails soft. -/
lemma version_cases (env : Env) (fs : FS) (d : Path) :
    get_schema_version env fs d = markerVal (fs.lookup (d ++ [schemaMarkerName])) ∨
    get_schema_version env fs d = 0 := by
  unfold get_schema_version doRead markerVal
  dsimp only
  cases hl : fs.lookup (d ++ [schemaMarkerName]) with
  | none => exact Or.inr rfl
  | some n =>
    cases n with
    | dir =>
      by_cases hr : env.failRead (d ++ [schemaMarkerName])
      · rw [if_pos hr]
        exact Or.inr rfl
      · rw [if_neg hr]
        exact Or.inr rfl
    | file c =>
      by_cases hr : env.failRead (d ++ [schemaMarkerName])
      · rw [if_pos hr]
        exact Or.inr rfl
      · rw [if_neg hr]
        dsimp only
        cases hp : parseInt (pyStrip c) with
        | none => exact Or.inr rfl
        | some n => exact Or.inl rfl

/-- What a successful move can do to a marker path directly under its
destination: leave it unchanged, carry over the marker from under the
source, or leave nothing there. -/
lemma doMove_dst_marker {env : Env} {st st' : St} {src dst : Path} {m : String}
    (h : doMove env st src dst = Except.ok st')
    (hsm : isPathPrefix src (dst ++ [m]) = false)
    (hbm : basename src ≠ m) :
    st'.fs.lookup (dst ++ [m]) = st.fs.lookup (dst ++ [m]) ∨
    st'.fs.lookup (dst ++ [m]) = st.fs.lookup (src ++ [m]) ∨
    st'.fs.lookup (dst ++ [m]) = none := by
  unfold doMove at h
  by_cases hf : env.failMove src dst
  · simp [hf] at h
  · rw [if_neg hf] at h
    cases hs : st.fs.lookup src with
    | none => rw [hs] at h; exact Except.noConfusion h
    | some n =>
      rw [hs] at h
      cases n with
      | file c =>
        cases hd : st.fs.lookup dst with
        | none =>
          rw [hd] at h
          cases h
          refine Or.inl ?_
          show ((st.fs.erase src).insert dst (Node.file c)).lookup (dst ++ [m]) = _
          rw [lookup_insert_ne _ _ _ _ (concat_ne_self dst m),
            lookup_erase_ne _ _ _ (fun he => (ne_of_not_ipp hsm) he.symm)]
        | some nd =>
          rw [hd] at h
          cases nd with
          | dir =>
            cases he : st.fs.lookup (dst ++ [basename src]) with
            | some v => rw [he] at h; exact Except.noConfusion h
            | none =>
              rw [he] at h
              cases h
              refine Or.inl ?_
              show ((st.fs.erase src).insert (dst ++ [basename src]) (Node.file c)).lookup (dst ++ [m]) = _
              rw [lookup_insert_ne _ _ _ _ (append_singleton_ne (Ne.symm hbm)),
                lookup_erase_ne _ _ _ (fun he2 => (ne_of_not_ipp hsm) he2.symm)]
          | file c2 =>
            cases h
            refine Or.inl ?_
            show ((st.fs.erase src).insert dst (Node.file c)).lookup (dst ++ [m]) = _
            rw [lookup_insert_ne _ _ _ _ (concat_ne_self dst m),
              lookup_erase_ne _ _ _ (fun he => (ne_of_not_ipp hsm) he.symm)]
      | dir =>
        cases hd : st.fs.lookup dst with
        | none =>
          rw [hd] at h
          cases h
          have h3 := lookup_moveTree_dst st.fs src dst (dst ++ [m]) hsm (ipp_append_right dst [m])
          rcases h3 with h1 | h2 | h3
          · exact Or.inl h1
          · rw [List.drop_left] at h2
            exact Or.inr (Or.inl h2)
          · exact Or.inr (Or.inr h3)
        | some nd =>
          rw [hd] at h
          cases nd with
          | dir =>
            cases he : st.fs.lookup (dst ++ [basename src]) with
            | some v => rw [he] at h; exact Except.noConfusion h
            | none =>
              rw [he] at h
              cases h
              refine Or.inl ?_
              refine lookup_moveTree_of_not _ _ _ _ hsm ?_
              rw [ipp_append_same]
              simp [isPathPrefix, hbm]
          | file c2 => exact Except.noConfusion h

/-- A failed execution phase surfaces an error on stderr (so it is
distinguishable from a decline, which leaves stderr untouched) and never
stamps the version marker: the marker entry at the new config location is
either what it was before, the carried-over legacy marker, or absent. -/
lemma perform_none_err_marker {env : Env} {st st' : St}
    (h : performMigration env st (env.cwd ++ ["config"]) = (none, st')) :
    st'.err ≠ st.err ∧
    (st'.fs.lookup (((env.cwd ++ ["tally"]) ++ ["config"]) ++ [schemaMarkerName])
       = st.fs.lookup (((env.cwd ++ ["tally"]) ++ ["config"]) ++ [schemaMarkerName]) ∨
     st'.fs.lookup (((env.cwd ++ ["tally"]) ++ ["config"]) ++ [schemaMarkerName])
       = st.fs.lookup ((env.cwd ++ ["config"]) ++ [schemaMarkerName]) ∨
     st'.fs.lookup (((env.cwd ++ ["tally"]) ++ ["config"]) ++ [schemaMarkerName]) = none) := by
  unfold performMigration at h
  dsimp only at h
  cases h1 : doMakedirs env st (env.cwd ++ ["tally"]) with
  | error e =>
    rw [h1] at h
    dsimp only at h
    injection h with _ hst
    subst hst
    exact ⟨List.cons_ne_self _ _, Or.inl rfl⟩
  | ok st1 =>
    rw [h1] at h
    dsimp only at h
    obtain ⟨_, _, hpres1, _, herr1⟩ := doMakedirs_ok_props h1
    have hm1N : st1.fs.lookup (((env.cwd ++ ["tally"]) ++ ["config"]) ++ [schemaMarkerName])
        = st.fs.lookup (((env.cwd ++ ["tally"]) ++ ["config"]) ++ [schemaMarkerName]) :=
      hpres1 _ (ne_append3_append1 _ _ _ _ _)
    have hm1O : st1.fs.lookup ((env.cwd ++ ["config"]) ++ [schemaMarkerName])
        = st.fs.lookup ((env.cwd ++ ["config"]) ++ [schemaMarkerName]) :=
      hpres1 _ (ne_append2_append1 _ _ _ _)
    cases h2 : doMove env (pushOut st1 movingConfigMsg) (env.cwd ++ ["config"])
        ((env.cwd ++ ["tally"]) ++ ["config"]) with
    | error e =>
      rw [h2] at h
      dsimp only at h
      injection h with _ hst
      subst hst
      refine ⟨?_, Or.inl hm1N⟩
      show layoutErrorMsg e :: st1.err ≠ st.err
      rw [herr1]
      exact List.cons_ne_self _ _
    | ok st2 =>
      rw [h2] at h
      dsimp only at h
      obtain ⟨_, _, _, herr2⟩ := doMove_ok_props h2
      have hm2 := @doMove_dst_marker env (pushOut st1 movingConfigMsg) st2
        (env.cwd ++ ["config"]) ((env.cwd ++ ["tally"]) ++ ["config"]) schemaMarkerName h2
        (by simp only [List.append_assoc]; rw [ipp_append_same]; decide)
        (by rw [basename_concat]; decide)
      have hm2N : st2.fs.lookup (((env.cwd ++ ["tally"]) ++ ["config"]) ++ [schemaMarkerName])
          = st.fs.lookup (((env.cwd ++ ["tally"]) ++ ["config"]) ++ [schemaMarkerName]) ∨
          st2.fs.lookup (((env.cwd ++ ["tally"]) ++ ["config"]) ++ [schemaMarkerName])
            = st.fs.lookup ((env.cwd ++ ["config"]) ++ [schemaMarkerName]) ∨
          st2.fs.lookup (((env.cwd ++ ["tally"]) ++ ["config"]) ++ [schemaMarkerName]) = none := by
        rcases hm2 with ha | hb | hc
        · exact Or.inl (ha.trans hm1N)
        · exact Or.inr (Or.inl (hb.trans hm1O))
        · exact Or.inr (Or.inr hc)
      cases h3 : moveSubdirStep env st2 (env.cwd ++ ["tally"]) "data" with
      | error e =>
        rw [h3] at h
        dsimp only at h
        injection h with _ hst
        subst hst
        refine ⟨?_, hm2N⟩
        show layoutErrorMsg e :: st2.err ≠ st.err
        rw [herr2]
        show layoutErrorMsg e :: st1.err ≠ st.err
        rw [herr1]
        exact List.cons_ne_self _ _
      | ok st3 =>
        rw [h3] at h
        dsimp only at h
        obtain ⟨hpres3, herr3⟩ := moveSubdirStep_ok_props h3
        have hm3N : st3.fs.lookup (((env.cwd ++ ["tally"]) ++ ["config"]) ++ [schemaMarkerName])
            = st2.fs.lookup (((env.cwd ++ ["tally"]) ++ ["config"]) ++ [schemaMarkerName]) :=
          hpres3 _ (by simp only [List.append_assoc]; rw [ipp_append_same]; decide)
            (by simp only [List.append_assoc]; rw [ipp_append_same]; decide)
        have hm3D : st3.fs.lookup (((env.cwd ++ ["tally"]) ++ ["config"]) ++ [schemaMarkerName])
            = st.fs.lookup (((env.cwd ++ ["tally"]) ++ ["config"]) ++ [schemaMarkerName]) ∨
            st3.fs.lookup (((env.cwd ++ ["tally"]) ++ ["config"]) ++ [schemaMarkerName])
              = st.fs.lookup ((env.cwd ++ ["config"]) ++ [schemaMarkerName]) ∨
            st3.fs.lookup (((env.cwd ++ ["tally"]) ++ ["config"]) ++ [schemaMarkerName]) = none := by
          rw [hm3N]
          exact hm2N
        cases h4 : moveSubdirStep env st3 (env.cwd ++ ["tally"]) "output" with
        | error e =>
          rw [h4] at h
          dsimp only at h
          injection h with _ hst
          subst hst
          refine ⟨?_, hm3D⟩
          show layoutErrorMsg e :: st3.err ≠ st.err
          rw [herr3, herr2]
          show layoutErrorMsg e :: st1.err ≠ st.err
          rw [herr1]
          exact List.cons_ne_self _ _
        | ok st4 =>
          rw [h4] at h
          dsimp only at h
          obtain ⟨hpres4, herr4⟩ := moveSubdirStep_ok_props h4
          have hm4N : st4.fs.lookup (((env.cwd ++ ["tally"]) ++ ["config"]) ++ [schemaMarkerName])
              = st3.fs.lookup (((env.cwd ++ ["tally"]) ++ ["config"]) ++ [schemaMarkerName]) :=
            hpres4 _ (by simp only [List.append_assoc]; rw [ipp_append_same]; decide)
              (by simp only [List.append_assoc]; rw [ipp_append_same]; decide)
          have hm4D : st4.fs.lookup (((env.cwd ++ ["tally"]) ++ ["config"]) ++ [schemaMarkerName])
              = st.fs.lookup (((env.cwd ++ ["tally"]) ++ ["config"]) ++ [schemaMarkerName]) ∨
              st4.fs.lookup (((env.cwd ++ ["tally"]) ++ ["config"]) ++ [schemaMarkerName])
                = st.fs.lookup ((env.cwd ++ ["config"]) ++ [schemaMarkerName]) ∨
              st4.fs.lookup (((env.cwd ++ ["tally"]) ++ ["config"]) ++ [schemaMarkerName]) = none := by
            rw [hm4N]
            exact hm3D
          cases h5 : doWrite env st4 (((env.cwd ++ ["tally"]) ++ ["config"]) ++ [schemaMarkerName]) "1\n" with
          | error e =>
            rw [h5] at h
            dsimp only at h
            injection h with _ hst
            subst hst
            refine ⟨?_, hm4D⟩
            show layoutErrorMsg e :: st4.err ≠ st.err
            rw [herr4, herr3, herr2]
            show layoutErrorMsg e :: st1.err ≠ st.err
            rw [herr1]
            exact List.cons_ne_self _ _
          | ok st5 =>
            rw [h5] at h
            dsimp only at h
            injection h with hcontra _
            exact Option.noConfusion hcontra


/-- C3: The layout-migration step has a caller-distinguishable tri-state
outcome.  `applied` returns the new location with nothing added to stderr;
`declined` (user said no, or preconditions unmet) returns no location and
leaves both stderr and the filesystem untouched — not an error; `failed`
(an I/O error during the create/move/write steps) aborts the whole step,
returns no location, and is surfaced as an error on stderr, distinct from a
decline; and, under the pipeline invariant that neither marker location
already claims a current version, the version marker is never written on
partial failure: after a failure the new config location still reads as a
pre-migration schema version. -/
theorem C3_tristate_outcome (env : Env) (st : St) (dir : Path) (skip : Bool)
    (hOld : markerVal (st.fs.lookup ((env.cwd ++ ["config"]) ++ [schemaMarkerName])) < 1)
    (hNew : markerVal (st.fs.lookup (((env.cwd ++ ["tally"]) ++ ["config"]) ++ [schemaMarkerName])) < 1) :
    (∀ p st', migrate_v0_to_v1 env st dir skip = (some p, st') → st'.err = st.err) ∧
    (∀ st', migrate_v0_to_v1 env st dir skip = (none, st') →
       (st'.err = st.err ∧ st'.fs = st.fs) ∨
       (st'.err ≠ st.err ∧
        get_schema_version env st'.fs ((env.cwd ++ ["tally"]) ++ ["config"]) < 1)) := by
  constructor
  · intro p st' h
    exact (migrate_some_props h).2.2
  · intro st' h
    have failed : ∀ st₀ : St, st₀.fs = st.fs → st₀.err = st.err →
        performMigration env st₀ (env.cwd ++ ["config"]) = (none, st') →
        (st'.err = st.err ∧ st'.fs = st.fs) ∨
        (st'.err ≠ st.err ∧
         get_schema_version env st'.fs ((env.cwd ++ ["tally"]) ++ ["config"]) < 1) := by
      intro st₀ hfs0 herr0 hp
      obtain ⟨hne, hdisj⟩ := perform_none_err_marker hp
      refine Or.inr ⟨?_, ?_⟩
      · rw [← herr0]
        exact hne
      · rcases version_cases env st'.fs ((env.cwd ++ ["tally"]) ++ ["config"]) with hv | hv
        · rw [hv]
          rcases hdisj with h1 | h2 | h3
          · rw [h1, hfs0]
            exact hNew
          · rw [h2, hfs0]
            exact hOld
          · rw [h3]
            decide
        · rw [hv]
          decide
    unfold migrate_v0_to_v1 at h
    by_cases hb : basename dir ≠ "config"
    · rw [if_pos hb] at h
      injection h with _ hst
      subst hst
      exact Or.inl ⟨rfl, rfl⟩
    · rw [if_neg hb] at h
      by_cases hd : dirname dir ≠ env.cwd
      · rw [if_pos hd] at h
        injection h with _ hst
        subst hst
        exact Or.inl ⟨rfl, rfl⟩
      · rw [if_neg hd] at h
        have hdir : dir = env.cwd ++ ["config"] :=
          path_eq_of_base_dir (not_not.mp (fun hc => hb hc)) (not_not.mp hd)
        subst hdir
        by_cases hs : skip
        · rw [if_pos hs] at h
          exact failed st rfl rfl h
        · rw [if_neg hs] at h
          by_cases ht : env.stdinTTY = false
          · rw [if_pos ht] at h
            injection h with _ hst
            subst hst
            exact Or.inl ⟨rfl, rfl⟩
          · rw [if_neg ht] at h
            dsimp only at h
            cases ha : env.answer with
            | none =>
              rw [ha] at h
              injection h with _ hst
              subst hst
              exact Or.inl ⟨rfl, rfl⟩
            | some r =>
              rw [ha] at h
              dsimp only at h
              by_cases hn : pyLower (pyStrip r) = "n"
              · rw [if_pos hn] at h
                injection h with _ hst
                subst hst
                exact Or.inl ⟨rfl, rfl⟩
              · rw [if_neg hn] at h
                exact failed (pushOut st layoutPromptMsg) rfl rfl h

theorem C3_witness :
    markerVal (FS.lookup ([] : FS) ((baseEnv.cwd ++ ["config"]) ++ [schemaMarkerName])) < 1 ∧
    migrate_v0_to_v1 baseEnv emptySt ["root", "config"] true = (none, c3FailSt) ∧
    ((c3FailSt.err = emptySt.err ∧ c3FailSt.fs = emptySt.fs) ∨
     (c3FailSt.err ≠ emptySt.err ∧
      get_schema_version baseEnv c3FailSt.fs ((baseEnv.cwd ++ ["tally"]) ++ ["config"]) < 1)) :=
  ⟨by decide, rfl,
   (C3_tristate_outcome baseEnv emptySt ["root", "config"] true (by decide) (by decide)).2
     c3FailSt rfl⟩

/-! Helper lemmas about the CSV-to-rules migration. -/

lemma append_bak_last (s : String) : (s ++ ".bak").data.reverse.head? = some 'k' := by
  rw [String.data_append, List.reverse_append]
  rfl

lemma append_bak_ne (s t : String) (hl : t.data.reverse.head? ≠ some 'k') :
    s ++ ".bak" ≠ t := by
  intro h
  apply hl
  rw [← h]
  exact append_bak_last s

lemma bakPath_ne_concat (csv l : Path) (t : String)
    (hl : t.data.reverse.head? ≠ some 'k') : bakPath csv ≠ l ++ [t] := by
  intro h
  have h2 := congrArg basename h
  unfold bakPath at h2
  rw [basename_concat, basename_concat] at h2
  exact append_bak_ne _ _ hl h2

lemma doWrite_fail {env : Env} (st : St) (p : Path) (c : String)
    (h : env.failWrite p = true) : doWrite env st p c = Except.error "write io error" := by
  unfold doWrite
  rw [if_pos h]

/-- A settings-step exception carries the state unchanged. -/
lemma csvSettingsStep_err {env : Env} {st st' : St} {cfg : Path} {e : String}
    (h : csvSettingsStep env st cfg = Except.error (e, st')) : st' = st := by
  unfold csvSettingsStep at h
  dsimp only at h
  cases hl : st.fs.lookup (cfg ++ ["settings.yaml"]) with
  | none => rw [hl] at h; exact Except.noConfusion h
  | some n =>
    rw [hl] at h
    cases hr : doRead env st.fs (cfg ++ ["settings.yaml"]) with
    | error e2 =>
      rw [hr] at h
      injection h with h2
      exact (Prod.mk.injEq _ _ _ _ ▸ h2).2.symm
    | ok content =>
      rw [hr] at h
      dsimp only at h
      by_cases hc : strContains content "merchants_file:" = true
      · rw [if_pos hc] at h
        exact Except.noConfusion h
      · rw [if_neg hc] at h
        cases hw : doWrite env st (cfg ++ ["settings.yaml"]) (content ++ settingsPointerAppendix) with
        | error e2 =>
          rw [hw] at h
          injection h with h2
          exact (Prod.mk.injEq _ _ _ _ ▸ h2).2.symm
        | ok st2 => rw [hw] at h; exact Except.noConfusion h

/-- A successful settings step leaves the filesystem unchanged, or appends
the pointer to the existing settings file. -/
lemma csvSettingsStep_ok {env : Env} {st st' : St} {cfg : Path}
    (h : csvSettingsStep env st cfg = Except.ok st') :
    st'.fs = st.fs ∨
    ∃ c, st.fs.lookup (cfg ++ ["settings.yaml"]) = some (Node.file c) ∧
      strContains c "merchants_file:" = false ∧
      st'.fs = st.fs.insert (cfg ++ ["settings.yaml"]) (Node.file (c ++ settingsPointerAppendix)) := by
  unfold csvSettingsStep at h
  dsimp only at h
  cases hl : st.fs.lookup (cfg ++ ["settings.yaml"]) with
  | none =>
    rw [hl] at h
    injection h with h2
    rw [← h2]
    exact Or.inl rfl
  | some n =>
    rw [hl] at h
    cases hr : doRead env st.fs (cfg ++ ["settings.yaml"]) with
    | error e2 => rw [hr] at h; exact Except.noConfusion h
    | ok content =>
      rw [hr] at h
      dsimp only at h
      have hcon : st.fs.lookup (cfg ++ ["settings.yaml"]) = some (Node.file content) := by
        unfold doRead at hr
        by_cases hfr : env.failRead (cfg ++ ["settings.yaml"])
        · rw [if_pos hfr] at hr
          exact Except.noConfusion hr
        · rw [if_neg hfr, hl] at hr
          cases n with
          | dir => exact Except.noConfusion hr
          | file c0 =>
            injection hr with h3
            rw [hl, h3]
      by_cases hc : strContains content "merchants_file:" = true
      · rw [if_pos hc] at h
        injection h with h2
        rw [← h2]
        exact Or.inl rfl
      · rw [if_neg hc] at h
        cases hw : doWrite env st (cfg ++ ["settings.yaml"]) (content ++ settingsPointerAppendix) with
        | error e2 => rw [hw] at h; exact Except.noConfusion h
        | ok st2 =>
          rw [hw] at h
          injection h with h2
          obtain ⟨hfs2, _, _⟩ := doWrite_ok hw
          refine Or.inr ⟨content, hl.symm.trans hcon, by simpa using hc, ?_⟩
          rw [← h2]
          show st2.fs = _
          exact hfs2

/-- A successful move of a file entry leaves every other present path
untouched (the destination-resolution targets are distinct from it). -/
lemma doMove_file_pres {env : Env} {st st' : St} {src dst q : Path}
    (h : doMove env st src dst = Except.ok st')
    (hfile : st.fs.lookup src ≠ some Node.dir)
    (hq1 : q ≠ src) (hq2 : q ≠ dst)
    (hq3 : (st.fs.lookup q).isSome = true) :
    st'.fs.lookup q = st.fs.lookup q := by
  unfold doMove at h
  by_cases hf : env.failMove src dst
  · simp [hf] at h
  · rw [if_neg hf] at h
    cases hs : st.fs.lookup src with
    | none => rw [hs] at h; exact Except.noConfusion h
    | some n =>
      rw [hs] at h
      cases n with
      | dir => exact absurd hs hfile
      | file c =>
        cases hd : st.fs.lookup dst with
        | none =>
          rw [hd] at h
          cases h
          show ((st.fs.erase src).insert dst (Node.file c)).lookup q = _
          rw [lookup_insert_ne _ _ _ _ hq2, lookup_erase_ne _ _ _ hq1]
        | some nd =>
          rw [hd] at h
          cases nd with
          | dir =>
            cases he : st.fs.lookup (dst ++ [basename src]) with
            | some v => rw [he] at h; exact Except.noConfusion h
            | none =>
              rw [he] at h
              cases h
              have hqr : q ≠ dst ++ [basename src] := by
                intro hqe
                rw [hqe, he] at hq3
                exact Bool.noConfusion hq3
              show ((st.fs.erase src).insert (dst ++ [basename src]) (Node.file c)).lookup q = _
              rw [lookup_insert_ne _ _ _ _ hqr, lookup_erase_ne _ _ _ hq1]
          | file c2 =>
            cases h
            show ((st.fs.erase src).insert dst (Node.file c)).lookup q = _
            rw [lookup_insert_ne _ _ _ _ hq2, lookup_erase_ne _ _ _ hq1]

/-- Inversion of a successful legacy-table load: the entry is a readable
file whose contents parse into the returned rule set. -/
lemma load_ok_file {env : Env} {fs : FS} {p : Path} {rs : RuleSet}
    (h : load_merchant_rules env fs p = Except.ok rs) :
    ∃ c, fs.lookup p = some (Node.file c) ∧ env.parseFails c = false ∧
      rs = env.rulesOfContent c := by
  unfold load_merchant_rules at h
  cases hl : fs.lookup p with
  | none => rw [hl] at h; exact Except.noConfusion h
  | some n =>
    rw [hl] at h
    cases n with
    | dir => exact Except.noConfusion h
    | file c =>
      dsimp only at h
      by_cases hp : env.parseFails c = true
      · rw [if_pos hp] at h
        exact Except.noConfusion h
      · rw [if_neg hp] at h
        injection h with h2
        exact ⟨c, rfl, by simpa using hp, h2.symm⟩

/-- Master case analysis of `migrate_csv_to_rules`: either it failed before
writing anything and the filesystem is fully unchanged; or the new rules
file was written, the CSV entry was not touched, and the converted content
is in place; or backup mode moved the CSV away after the new rules file was
written, and the converted content is still in place at the end. -/
lemma migrate_csv_cases (env : Env) (st : St) (csv cfg : Path) (b : Bool)
    (h1 : isPathPrefix csv (cfg ++ ["merchants.rules"]) = false)
    (h2 : isPathPrefix csv (cfg ++ ["settings.yaml"]) = false) :
    ((migrate_csv_to_rules env st csv cfg b).2).fs = st.fs ∨
    (∃ rs, load_merchant_rules env st.fs csv = Except.ok rs ∧
      ((migrate_csv_to_rules env st csv cfg b).2).fs.lookup csv = st.fs.lookup csv ∧
      ((migrate_csv_to_rules env st csv cfg b).2).fs.lookup (cfg ++ ["merchants.rules"])
        = some (Node.file (env.convert rs))) ∨
    (b = true ∧ ∃ rs, load_merchant_rules env st.fs csv = Except.ok rs ∧
      ((migrate_csv_to_rules env st csv cfg b).2).fs.lookup (cfg ++ ["merchants.rules"])
        = some (Node.file (env.convert rs))) := by
  unfold migrate_csv_to_rules csvBody
  dsimp only
  cases hld : load_merchant_rules env st.fs csv with
  | error e => exact Or.inl rfl
  | ok rs =>
    dsimp only
    cases hw : doWrite env st (cfg ++ ["merchants.rules"]) (env.convert rs) with
    | error e => exact Or.inl rfl
    | ok stw =>
      dsimp only [pushOut]
      obtain ⟨hfsw, _, _⟩ := doWrite_ok hw
      have hNewW : stw.fs.lookup (cfg ++ ["merchants.rules"])
          = some (Node.file (env.convert rs)) := by
        rw [hfsw]
        exact lookup_insert_self _ _ _
      have hCsvW : stw.fs.lookup csv = st.fs.lookup csv := by
        rw [hfsw]
        exact lookup_insert_ne _ _ _ _ (ne_of_not_ipp h1)
      have hNewSet : (cfg ++ ["merchants.rules"]) ≠ (cfg ++ ["settings.yaml"]) :=
        append_singleton_ne (by decide)
      have hCsvSet : csv ≠ (cfg ++ ["settings.yaml"]) := ne_of_not_ipp h2
      by_cases hcond : (b && (stw.fs.lookup csv).isSome) = true
      · rw [if_pos hcond]
        have hcond2 : b = true ∧ (stw.fs.lookup csv).isSome = true := by simpa using hcond
        obtain ⟨hb, hsome⟩ := hcond2
        cases hm : doMove env ⟨stw.fs, convertedRulesMsg :: createdRulesMsg :: stw.out, stw.err⟩
            csv (bakPath csv) with
        | error e =>
          dsimp only
          refine Or.inr (Or.inl ⟨rs, rfl, ?_, ?_⟩)
          · exact hCsvW
          · exact hNewW
        | ok stm =>
          dsimp only
          obtain ⟨c0, hc0, _, _⟩ := load_ok_file hld
          have hfile : FS.lookup stw.fs csv ≠ some Node.dir := by
            rw [hCsvW, hc0]
            exact fun hc => Node.noConfusion (Option.some.inj hc)
          have hNewM : stm.fs.lookup (cfg ++ ["merchants.rules"])
              = stw.fs.lookup (cfg ++ ["merchants.rules"]) :=
            @doMove_file_pres env
              ⟨stw.fs, convertedRulesMsg :: createdRulesMsg :: stw.out, stw.err⟩ stm
              csv (bakPath csv) (cfg ++ ["merchants.rules"]) hm hfile
              (Ne.symm (ne_of_not_ipp h1))
              (Ne.symm (bakPath_ne_concat csv cfg "merchants.rules" (by decide)))
              (by show (stw.fs.lookup _).isSome = true
                  rw [hNewW]
                  rfl)
          cases hset : csvSettingsStep env
              ⟨stm.fs, backedUpMsg :: stm.out, stm.err⟩ cfg with
          | error est =>
            obtain ⟨e2, st2⟩ := est
            dsimp only
            have hsteq := csvSettingsStep_err hset
            refine Or.inr (Or.inr ⟨hb, rs, rfl, ?_⟩)
            show st2.fs.lookup _ = _
            rw [hsteq]
            show stm.fs.lookup _ = _
            rw [hNewM]
            exact hNewW
          | ok st3 =>
            dsimp only
            refine Or.inr (Or.inr ⟨hb, rs, rfl, ?_⟩)
            rcases csvSettingsStep_ok hset with hfs3 | ⟨c, _, _, hfs3⟩
            · show st3.fs.lookup _ = _
              rw [hfs3]
              show stm.fs.lookup _ = _
              rw [hNewM]
              exact hNewW
            · show st3.fs.lookup _ = _
              rw [hfs3, lookup_insert_ne _ _ _ _ hNewSet]
              show stm.fs.lookup _ = _
              rw [hNewM]
              exact hNewW
      · rw [if_neg hcond]
        cases hset : csvSettingsStep env
            ⟨stw.fs, convertedRulesMsg :: createdRulesMsg :: stw.out, stw.err⟩ cfg with
        | error est =>
          obtain ⟨e2, st2⟩ := est
          dsimp only
          have hsteq := csvSettingsStep_err hset
          refine Or.inr (Or.inl ⟨rs, rfl, ?_, ?_⟩)
          · show st2.fs.lookup _ = _
            rw [hsteq]
            exact hCsvW
          · show st2.fs.lookup _ = _
            rw [hsteq]
            exact hNewW
        | ok st3 =>
          dsimp only
          rcases csvSettingsStep_ok hset with hfs3 | ⟨c, _, _, hfs3⟩
          · refine Or.inr (Or.inl ⟨rs, rfl, ?_, ?_⟩)
            · show st3.fs.lookup _ = _
              rw [hfs3]
              exact hCsvW
            · show st3.fs.lookup _ = _
              rw [hfs3]
              exact hNewW
          · refine Or.inr (Or.inl ⟨rs, rfl, ?_, ?_⟩)
            · show st3.fs.lookup _ = _
              rw [hfs3, lookup_insert_ne _ _ _ _ hCsvSet]
              exact hCsvW
            · show st3.fs.lookup _ = _
              rw [hfs3, lookup_insert_ne _ _ _ _ hNewSet]
              exact hNewW

/-- C1: `migrate_csv_to_rules` never deletes or renames the original CSV
unless backup is true and the new merchants.rules file was successfully
written first: with backup false the CSV entry is untouched after the call;
a failure while writing the new file returns False with the filesystem —
the original CSV included — completely unchanged, so the conversion is
re-runnable; and whenever the CSV entry changed at all, backup was true,
the legacy table had loaded successfully, and the successfully written
converted content is present at merchants.rules in the final state.  (The
prefix hypotheses state that the CSV path is not the config directory
itself nor at or above the two files the migration manages.) -/
theorem C1_csv_backup_safety (env : Env) (st : St) (csv cfg : Path) (b : Bool)
    (h1 : isPathPrefix csv (cfg ++ ["merchants.rules"]) = false)
    (h2 : isPathPrefix csv (cfg ++ ["settings.yaml"]) = false) :
    (b = false →
       ((migrate_csv_to_rules env st csv cfg b).2).fs.lookup csv = st.fs.lookup csv) ∧
    (env.failWrite (cfg ++ ["merchants.rules"]) = true →
       (migrate_csv_to_rules env st csv cfg b).1 = false ∧
       ((migrate_csv_to_rules env st csv cfg b).2).fs = st.fs) ∧
    (((migrate_csv_to_rules env st csv cfg b).2).fs.lookup csv ≠ st.fs.lookup csv →
       b = true ∧
       ∃ rs, load_merchant_rules env st.fs csv = Except.ok rs ∧
         ((migrate_csv_to_rules env st csv cfg b).2).fs.lookup (cfg ++ ["merchants.rules"])
           = some (Node.file (env.convert rs))) := by
  refine ⟨?_, ?_, ?_⟩
  · intro hb
    rcases migrate_csv_cases env st csv cfg b h1 h2 with hA | ⟨rs, _, hcsv, _⟩ | ⟨hbt, _⟩
    · rw [hA]
    · exact hcsv
    · rw [hb] at hbt
      exact Bool.noConfusion hbt
  · intro hfw
    unfold migrate_csv_to_rules csvBody
    dsimp only
    cases hld : load_merchant_rules env st.fs csv with
    | error e => exact ⟨rfl, rfl⟩
    | ok rs =>
      dsimp only
      rw [doWrite_fail st (cfg ++ ["merchants.rules"]) (env.convert rs) hfw]
      exact ⟨rfl, rfl⟩
  · intro hne
    rcases migrate_csv_cases env st csv cfg b h1 h2 with hA | ⟨rs, _, hcsv, _⟩ | ⟨hbt, rs, hl, hnew⟩
    · exact absurd (by rw [hA]) hne
    · exact absurd hcsv hne
    · exact ⟨hbt, rs, hl, hnew⟩

theorem C1_witness :
    isPathPrefix ["c", "m.csv"] (["c"] ++ ["merchants.rules"]) = false ∧
    isPathPrefix ["c", "m.csv"] (["c"] ++ ["settings.yaml"]) = false ∧
    ((migrate_csv_to_rules baseEnv ⟨fsCsv, [], []⟩ ["c", "m.csv"] ["c"] false).2).fs.lookup
        ["c", "m.csv"] = FS.lookup fsCsv ["c", "m.csv"] :=
  ⟨by decide, by decide,
   (C1_csv_backup_safety baseEnv ⟨fsCsv, [], []⟩ ["c", "m.csv"] ["c"] false
      (by decide) (by decide)).1 rfl⟩

/-- C10: When no settings.yaml exists in the config directory and the rest
of the conversion succeeds, `migrate_csv_to_rules` skips the settings
update entirely — the final state has no settings file and no path other
than the new rules file, the CSV and its backup is touched — and it still
returns True. -/
theorem C10_no_settings_skip (env : Env) (st : St) (csv cfg : Path) (b : Bool) (c : String)
    (h0 : st.fs.lookup (cfg ++ ["settings.yaml"]) = none)
    (hcs : st.fs.lookup csv = some (Node.file c))
    (hpf : env.parseFails c = false)
    (hfw : env.failWrite (cfg ++ ["merchants.rules"]) = false)
    (hnd : st.fs.lookup (cfg ++ ["merchants.rules"]) ≠ some Node.dir)
    (hcfg : st.fs.lookup cfg = some Node.dir)
    (hfm : env.failMove csv (bakPath csv) = false)
    (hbk : st.fs.lookup (bakPath csv) = none)
    (h1 : isPathPrefix csv (cfg ++ ["merchants.rules"]) = false) :
    (migrate_csv_to_rules env st csv cfg b).1 = true ∧
    ((migrate_csv_to_rules env st csv cfg b).2).fs.lookup (cfg ++ ["settings.yaml"]) = none ∧
    (∀ p, p ≠ cfg ++ ["merchants.rules"] → p ≠ csv → p ≠ bakPath csv →
       ((migrate_csv_to_rules env st csv cfg b).2).fs.lookup p = st.fs.lookup p) := by
  have hld : load_merchant_rules env st.fs csv = Except.ok (env.rulesOfContent c) := by
    unfold load_merchant_rules
    rw [hcs]
    dsimp only
    rw [if_neg (by rw [hpf]; exact fun hc => Bool.noConfusion hc)]
  have hcne : csv ≠ cfg ++ ["merchants.rules"] := ne_of_not_ipp h1
  have hsetne : (cfg ++ ["settings.yaml"]) ≠ cfg ++ ["merchants.rules"] :=
    append_singleton_ne (by decide)
  have hsetcsv : (cfg ++ ["settings.yaml"]) ≠ csv := by
    intro he
    rw [← he, h0] at hcs
    exact Option.noConfusion hcs
  have hbakne : bakPath csv ≠ cfg ++ ["merchants.rules"] :=
    bakPath_ne_concat csv cfg "merchants.rules" (by decide)
  have hbakset : bakPath csv ≠ cfg ++ ["settings.yaml"] :=
    bakPath_ne_concat csv cfg "settings.yaml" (by decide)
  have hw : doWrite env st (cfg ++ ["merchants.rules"]) (env.convert (env.rulesOfContent c))
      = Except.ok { st with
          fs := st.fs.insert (cfg ++ ["merchants.rules"])
            (Node.file (env.convert (env.rulesOfContent c))) } := by
    unfold doWrite
    rw [if_neg (by rw [hfw]; exact fun hc => Bool.noConfusion hc)]
    have hdn : dirname (cfg ++ ["merchants.rules"]) = cfg := dirname_concat _ _
    cases hnf : st.fs.lookup (cfg ++ ["merchants.rules"]) with
    | none => rw [hdn, hcfg]
    | some n =>
      cases n with
      | dir => exact absurd hnf hnd
      | file c2 => rw [hdn, hcfg]
  have hfs1 : ∀ q, q ≠ cfg ++ ["merchants.rules"] →
      (st.fs.insert (cfg ++ ["merchants.rules"])
        (Node.file (env.convert (env.rulesOfContent c)))).lookup q = st.fs.lookup q :=
    fun q hq => lookup_insert_ne _ _ _ _ hq
  unfold migrate_csv_to_rules csvBody
  dsimp only
  rw [hld]
  dsimp only
  rw [hw]
  dsimp only [pushOut]
  cases b with
  | false =>
    rw [if_neg (by simp)]
    have hset : csvSettingsStep env
        ⟨st.fs.insert (cfg ++ ["merchants.rules"]) (Node.file (env.convert (env.rulesOfContent c))),
         convertedRulesMsg :: createdRulesMsg :: st.out, st.err⟩ cfg = Except.ok
        ⟨st.fs.insert (cfg ++ ["merchants.rules"]) (Node.file (env.convert (env.rulesOfContent c))),
         convertedRulesMsg :: createdRulesMsg :: st.out, st.err⟩ := by
      unfold csvSettingsStep
      dsimp only
      rw [hfs1 _ hsetne, h0]
    rw [hset]
    refine ⟨rfl, ?_, ?_⟩
    · show (st.fs.insert _ _).lookup _ = none
      rw [hfs1 _ hsetne]
      exact h0
    · intro p hp1 _ _
      exact hfs1 p hp1
  | true =>
    have hcsv1 : (st.fs.insert (cfg ++ ["merchants.rules"])
        (Node.file (env.convert (env.rulesOfContent c)))).lookup csv = some (Node.file c) := by
      rw [hfs1 _ hcne]
      exact hcs
    rw [if_pos (by rw [hcsv1]; rfl)]
    have hm : doMove env
        ⟨st.fs.insert (cfg ++ ["merchants.rules"]) (Node.file (env.convert (env.rulesOfContent c))),
         convertedRulesMsg :: createdRulesMsg :: st.out, st.err⟩ csv (bakPath csv) = Except.ok
        ⟨((st.fs.insert (cfg ++ ["merchants.rules"])
            (Node.file (env.convert (env.rulesOfContent c)))).erase csv).insert
           (bakPath csv) (Node.file c),
         convertedRulesMsg :: createdRulesMsg :: st.out, st.err⟩ := by
      unfold doMove
      rw [if_neg (by rw [hfm]; exact fun hc => Bool.noConfusion hc)]
      dsimp only
      rw [hcsv1]
      rw [hfs1 _ hbakne, hbk]
    rw [hm]
    dsimp only
    have hfs2 : ∀ q, q ≠ bakPath csv → q ≠ csv → q ≠ cfg ++ ["merchants.rules"] →
        (((st.fs.insert (cfg ++ ["merchants.rules"])
            (Node.file (env.convert (env.rulesOfContent c)))).erase csv).insert
           (bakPath csv) (Node.file c)).lookup q = st.fs.lookup q := by
      intro q hq1 hq2 hq3
      rw [lookup_insert_ne _ _ _ _ hq1, lookup_erase_ne _ _ _ hq2, hfs1 _ hq3]
    have hset : csvSettingsStep env
        ⟨((st.fs.insert (cfg ++ ["merchants.rules"])
            (Node.file (env.convert (env.rulesOfContent c)))).erase csv).insert
           (bakPath csv) (Node.file c),
         backedUpMsg :: convertedRulesMsg :: createdRulesMsg :: st.out, st.err⟩ cfg = Except.ok
        ⟨((st.fs.insert (cfg ++ ["merchants.rules"])
            (Node.file (env.convert (env.rulesOfContent c)))).erase csv).insert
           (bakPath csv) (Node.file c),
         backedUpMsg :: convertedRulesMsg :: createdRulesMsg :: st.out, st.err⟩ := by
      unfold csvSettingsStep
      dsimp only
      rw [hfs2 _ (Ne.symm hbakset) hsetcsv hsetne, h0]
    rw [hset]
    refine ⟨rfl, ?_, ?_⟩
    · show (((st.fs.insert _ _).erase csv).insert _ _).lookup _ = none
      rw [hfs2 _ (Ne.symm hbakset) hsetcsv hsetne]
      exact h0
    · intro p hp1 hp2 hp3
      exact hfs2 p hp3 hp2 hp1

theorem C10_witness :
    FS.lookup fsCsv (["c"] ++ ["settings.yaml"]) = none ∧
    (migrate_csv_to_rules baseEnv ⟨fsCsv, [], []⟩ ["c", "m.csv"] ["c"] true).1 = true ∧
    ((migrate_csv_to_rules baseEnv ⟨fsCsv, [], []⟩ ["c", "m.csv"] ["c"] true).2).fs.lookup
      (["c"] ++ ["settings.yaml"]) = none :=
  ⟨by decide,
   (C10_no_settings_skip baseEnv ⟨fsCsv, [], []⟩ ["c", "m.csv"] ["c"] true "rows"
      (by decide) (by decide) (by decide) (by decide) (by decide) (by decide)
      (by decide) (by decide) (by decide)).1,
   (C10_no_settings_skip baseEnv ⟨fsCsv, [], []⟩ ["c", "m.csv"] ["c"] true "rows"
      (by decide) (by decide) (by decide) (by decide) (by decide) (by decide)
      (by decide) (by decide) (by decide)).2.1⟩

/-! Helper lemmas about line splitting and substring search, for the
settings-pointer idempotence claim. -/

lemma splitLines_newline (t : List Char) :
    splitLinesChars ('\n' :: t) = [] :: splitLinesChars t := rfl

lemma splitLines_cons (c : Char) (t : List Char) (hc : ¬ c = '\n') :
    splitLinesChars (c :: t)
      = match splitLinesChars t with
        | [] => [[c]]
        | l :: ls => (c :: l) :: ls := by
  conv_lhs => unfold splitLinesChars
  rw [if_neg hc]

lemma lsw_cons (a b : Char) (as bs : List Char) :
    listStartsWith (a :: as) (b :: bs) = (a == b && listStartsWith as bs) := rfl

lemma lcs_cons (n : List Char) (c : Char) (t : List Char) :
    listContainsSub n (c :: t) = (listStartsWith n (c :: t) || listContainsSub n t) := rfl

lemma splitLinesChars_ne_nil (l : List Char) : splitLinesChars l ≠ [] := by
  cases l with
  | nil => exact fun h => List.noConfusion h
  | cons c t =>
    by_cases hc : c = '\n'
    · subst hc
      rw [splitLines_newline]
      exact fun h => List.noConfusion h
    · rw [splitLines_cons c t hc]
      cases splitLinesChars t with
      | nil => exact fun h => List.noConfusion h
      | cons l0 ls => exact fun h => List.noConfusion h

lemma splitLinesChars_append_newline (a b : List Char) :
    splitLinesChars (a ++ '\n' :: b) = splitLinesChars a ++ splitLinesChars b := by
  induction a with
  | nil =>
    rw [List.nil_append, splitLines_newline]
    rfl
  | cons c t ih =>
    rw [List.cons_append]
    by_cases hc : c = '\n'
    · subst hc
      rw [splitLines_newline, splitLines_newline, ih, List.cons_append]
    · rw [splitLines_cons c _ hc, splitLines_cons c t hc, ih]
      cases hs : splitLinesChars t with
      | nil => exact absurd hs (splitLinesChars_ne_nil t)
      | cons l0 ls => rfl

lemma firstLine_prefix (a : List Char) :
    ∃ l0 ls t, splitLinesChars a = l0 :: ls ∧ l0 ++ t = a := by
  induction a with
  | nil => exact ⟨[], [], [], rfl, rfl⟩
  | cons c t ih =>
    by_cases hc : c = '\n'
    · subst hc
      exact ⟨[], splitLinesChars t, '\n' :: t, splitLines_newline t, rfl⟩
    · obtain ⟨l0, ls, t', hs, hp⟩ := ih
      refine ⟨c :: l0, ls, t', ?_, by rw [List.cons_append, hp]⟩
      rw [splitLines_cons c t hc, hs]

lemma listStartsWith_append {p x : List Char} (y : List Char)
    (h : listStartsWith p x = true) : listStartsWith p (x ++ y) = true := by
  induction p generalizing x with
  | nil => rfl
  | cons pc pt ih =>
    cases x with
    | nil => exact absurd h (fun hc => Bool.noConfusion hc)
    | cons xc xt =>
      rw [List.cons_append, lsw_cons, Bool.and_eq_true]
      rw [lsw_cons, Bool.and_eq_true] at h
      exact ⟨h.1, ih h.2⟩

lemma not_contains_lines {p a : List Char} (hp : p ≠ [])
    (h : listContainsSub p a = false) :
    ∀ l ∈ splitLinesChars a, listStartsWith p l = false := by
  induction a with
  | nil =>
    intro l hl
    have hl2 : l = [] := by
      have : splitLinesChars [] = [[]] := rfl
      rw [this, List.mem_singleton] at hl
      exact hl
    subst hl2
    cases p with
    | nil => exact absurd rfl hp
    | cons pc pt => rfl
  | cons c t ih =>
    rw [lcs_cons, Bool.or_eq_false_iff] at h
    obtain ⟨hsw, hct⟩ := h
    intro l hl
    by_cases hc : c = '\n'
    · subst hc
      rw [splitLines_newline, List.mem_cons] at hl
      rcases hl with hl | hl
      · subst hl
        cases p with
        | nil => exact absurd rfl hp
        | cons pc pt => rfl
      · exact ih hct l hl
    · obtain ⟨l0, ls, t', hs, hpref⟩ := firstLine_prefix t
      rw [splitLines_cons c t hc, hs, List.mem_cons] at hl
      rcases hl with hl | hl
      · subst hl
        by_cases hsw2 : listStartsWith p (c :: l0) = true
        · exfalso
          cases p with
          | nil => exact hp rfl
          | cons pc pt =>
            rw [lsw_cons, Bool.and_eq_true] at hsw2
            obtain ⟨hpc, hpt⟩ := hsw2
            have hfull : listStartsWith (pc :: pt) (c :: t) = true := by
              rw [lsw_cons, Bool.and_eq_true]
              refine ⟨hpc, ?_⟩
              rw [← hpref]
              exact listStartsWith_append t' hpt
            rw [hfull] at hsw
            exact Bool.noConfusion hsw
        · simpa using hsw2
      · exact ih hct l (by rw [hs]; exact List.mem_cons_of_mem _ hl)

lemma contains_append_right {n : List Char} (a : List Char) {b : List Char}
    (h : listContainsSub n b = true) : listContainsSub n (a ++ b) = true := by
  induction a with
  | nil => exact h
  | cons c t ih =>
    rw [List.cons_append, lcs_cons, Bool.or_eq_true]
    exact Or.inr ih

lemma pointerLineCount_zero {c : String}
    (h : strContains c "merchants_file:" = false) : pointerLineCount c = 0 := by
  unfold pointerLineCount
  rw [List.length_eq_zero]
  rw [List.filter_eq_nil_iff]
  intro l hl
  have := not_contains_lines (p := "merchants_file:".data) (by decide) h l hl
  simp [this]

/-- C8: Performing the settings-file update twice never produces two
merchants_file pointer lines: the update appends the comment-plus-pointer
text only when no pointer is already present — after which exactly one
pointer line exists — it never rewrites existing content (the result is
the original content, at most extended by the appendix), it is idempotent,
and inside `migrate_csv_to_rules` a successful settings step maps the
settings file content exactly through this transformation. -/
theorem C8_settings_update_idempotent (c : String) :
    updateSettingsContent (updateSettingsContent c) = updateSettingsContent c ∧
    (strContains c "merchants_file:" = false →
       updateSettingsContent c = c ++ settingsPointerAppendix ∧
       pointerLineCount (updateSettingsContent c) = 1) ∧
    (strContains c "merchants_file:" = true → updateSettingsContent c = c) ∧
    (∀ env st cfg st',
       st.fs.lookup (cfg ++ ["settings.yaml"]) = some (Node.file c) →
       csvSettingsStep env st cfg = Except.ok st' →
       st'.fs.lookup (cfg ++ ["settings.yaml"])
         = some (Node.file (updateSettingsContent c))) := by
  have happ : settingsPointerAppendix.data
      = '\n' :: ("# Merchant rules file (migrated from CSV)\nmerchants_file: config/merchants.rules\n").data := rfl
  have hcontap : ∀ d : String, strContains (d ++ settingsPointerAppendix) "merchants_file:" = true := by
    intro d
    unfold strContains
    rw [String.data_append]
    exact contains_append_right _ (by decide)
  have hupdate_pos : ∀ d : String, strContains d "merchants_file:" = true →
      updateSettingsContent d = d := by
    intro d hd
    unfold updateSettingsContent
    rw [if_pos hd]
  have hupdate_neg : ∀ d : String, strContains d "merchants_file:" = false →
      updateSettingsContent d = d ++ settingsPointerAppendix := by
    intro d hd
    unfold updateSettingsContent
    rw [if_neg (by rw [hd]; exact fun hc => Bool.noConfusion hc)]
  refine ⟨?_, ?_, hupdate_pos c, ?_⟩
  · by_cases hc : strContains c "merchants_file:" = true
    · rw [hupdate_pos c hc, hupdate_pos c hc]
    · have hc2 : strContains c "merchants_file:" = false := by simpa using hc
      rw [hupdate_neg c hc2, hupdate_pos _ (hcontap c)]
  · intro hc
    refine ⟨hupdate_neg c hc, ?_⟩
    rw [hupdate_neg c hc]
    have hz := pointerLineCount_zero hc
    unfold pointerLineCount at hz ⊢
    rw [String.data_append, happ, splitLinesChars_append_newline,
      List.filter_append, List.length_append, hz]
    decide
  · intro env st cfg st' hl hstep
    unfold csvSettingsStep at hstep
    dsimp only at hstep
    rw [hl] at hstep
    cases hr : doRead env st.fs (cfg ++ ["settings.yaml"]) with
    | error e =>
      rw [hr] at hstep
      exact Except.noConfusion hstep
    | ok content2 =>
      rw [hr] at hstep
      dsimp only at hstep
      have hc2 : content2 = c := by
        unfold doRead at hr
        by_cases hfr : env.failRead (cfg ++ ["settings.yaml"])
        · rw [if_pos hfr] at hr
          exact Except.noConfusion hr
        · rw [if_neg hfr, hl] at hr
          injection hr with h3
          exact h3.symm
      subst hc2
      by_cases hc : strContains content2 "merchants_file:" = true
      · rw [if_pos hc] at hstep
        injection hstep with h3
        rw [← h3, hl, hupdate_pos _ hc]
      · have hcf : strContains content2 "merchants_file:" = false := by simpa using hc
        rw [if_neg hc] at hstep
        cases hw : doWrite env st (cfg ++ ["settings.yaml"])
            (content2 ++ settingsPointerAppendix) with
        | error e =>
          rw [hw] at hstep
          exact Except.noConfusion hstep
        | ok st2 =>
          rw [hw] at hstep
          injection hstep with h3
          obtain ⟨hfs2, _, _⟩ := doWrite_ok hw
          rw [← h3]
          show st2.fs.lookup _ = _
          rw [hfs2, lookup_insert_self, hupdate_neg _ hcf]

theorem C8_witness :
    strContains "k: v" "merchants_file:" = false ∧
    updateSettingsContent "k: v" = "k: v" ++ settingsPointerAppendix ∧
    pointerLineCount (updateSettingsContent "k: v") = 1 :=
  ⟨by decide,
   ((C8_settings_update_idempotent "k: v").2.1 (by decide)).1,
   ((C8_settings_update_idempotent "k: v").2.1 (by decide)).2⟩

/-! Helper lemmas for the rule-source resolver claims. -/

lemma warnCount_cons_other (m : String) (l : List String)
    (h1 : (m == noRulesWarnMsg) = false) (h2 : (m == noRulesFoundMsg) = false) :
    warnCount (m :: l) = warnCount l := by
  unfold warnCount
  rw [List.filter_cons]
  rw [h1, h2]
  rfl

lemma warnCount_cons_warn (l : List String) :
    warnCount (noRulesWarnMsg :: l) = warnCount l + 1 := by
  unfold warnCount
  rw [List.filter_cons]
  rw [show ((noRulesWarnMsg == noRulesWarnMsg || noRulesWarnMsg == noRulesFoundMsg) : Bool) = true by decide]
  rfl

lemma warnCount_cons_found (l : List String) :
    warnCount (noRulesFoundMsg :: l) = warnCount l + 1 := by
  unfold warnCount
  rw [List.filter_cons]
  rw [show ((noRulesFoundMsg == noRulesWarnMsg || noRulesFoundMsg == noRulesFoundMsg) : Bool) = true by decide]
  rfl

lemma warnCount_push_upgrade (st : St) :
    warnCount (pushOut st upgradeBoxMsg).out = warnCount st.out :=
  warnCount_cons_other upgradeBoxMsg st.out (by decide) (by decide)

lemma warnCount_push_skip (st : St) :
    warnCount (pushOut st ruleSkippedMsg).out = warnCount st.out :=
  warnCount_cons_other ruleSkippedMsg st.out (by decide) (by decide)

lemma warnCount_push_tip (st : St) :
    warnCount (pushOut st migrateTipMsg).out = warnCount st.out :=
  warnCount_cons_other migrateTipMsg st.out (by decide) (by decide)

lemma csvPromptStep_fs (env : Env) (st : St) (q m : Bool) :
    ((csvPromptStep env st q m).2).fs = st.fs := by
  unfold csvPromptStep
  dsimp only
  repeat' split
  all_goals rfl

lemma csvPromptStep_warn (env : Env) (st : St) (q m : Bool) :
    warnCount ((csvPromptStep env st q m).2).out = warnCount st.out := by
  unfold csvPromptStep
  dsimp only
  repeat' split
  all_goals simp only [warnCount_push_upgrade, warnCount_push_skip, warnCount_push_tip]

lemma csvFallThrough_rules (env : Env) (st : St) (mf : Path) (rm : String)
    (q : Bool) (rs : RuleSet) :
    resultRules (csvFallThrough env st mf rm q rs) = get_all_rules env st.fs (some mf) rm := by
  unfold csvFallThrough
  dsimp only
  repeat' split
  all_goals rfl

lemma csvFallThrough_warn (env : Env) (st : St) (mf : Path) (rm : String) (rs : RuleSet) :
    warnCount (resultSt (csvFallThrough env st mf rm false rs)).out
      = if rs.length = 0 then warnCount st.out + 1 else warnCount st.out := by
  unfold csvFallThrough
  dsimp only
  by_cases h : rs.length = 0
  · rw [if_pos h, if_pos h]
    show warnCount (noRulesWarnMsg :: loadedRulesMsg :: st.out) = warnCount st.out + 1
    rw [warnCount_cons_warn,
      warnCount_cons_other loadedRulesMsg st.out (by decide) (by decide)]
  · rw [if_neg h, if_neg h]
    show warnCount (loadedRulesMsg :: st.out) = warnCount st.out
    rw [warnCount_cons_other loadedRulesMsg st.out (by decide) (by decide)]

lemma cmm_csv_eq (env : Env) (st : St) (cfg : TallyConfig) (config_dir : Path)
    (quiet migrate : Bool) (mf : Path) (c : String)
    (hmf : cfg.merchants_file = some mf) (hne : mf ≠ [])
    (hfmt : cfg.merchants_format = some "csv")
    (hlk : st.fs.lookup mf = some (Node.file c))
    (hpf : env.parseFails c = false) :
    check_merchant_migration env st cfg config_dir quiet migrate
      = if (csvPromptStep env st quiet migrate).1 then
          match migrate_csv_to_rules env (pushOut (csvPromptStep env st quiet migrate).2 migratingMsg)
              mf config_dir true with
          | (true, st2) =>
            Except.ok (get_all_rules env (pushOut st2 migrationCompleteMsg).fs
              (some (config_dir ++ ["merchants.rules"])) cfg.rule_mode,
              pushOut st2 migrationCompleteMsg)
          | (false, st2) => csvFallThrough env st2 mf cfg.rule_mode quiet (env.rulesOfContent c)
        else csvFallThrough env (csvPromptStep env st quiet migrate).2 mf cfg.rule_mode quiet
          (env.rulesOfContent c) := by
  have hpt : pathTruthy cfg.merchants_file = true := by
    rw [hmf]
    unfold pathTruthy
    cases mf with
    | nil => exact absurd rfl hne
    | cons a t => rfl
  unfold check_merchant_migration
  rw [if_neg (by rw [hpt]; exact fun h => Bool.noConfusion h)]
  rw [hmf]
  dsimp only
  rw [if_pos hfmt]
  unfold load_merchant_rules
  rw [hlk]
  dsimp only
  rw [if_neg (by rw [hpf]; exact fun h => Bool.noConfusion h)]
  unfold csvPromptStep
  rfl

/-- C4, counterexample: with a legacy CSV detected and a parse failure in
the legacy rule table, check_merchant_migration raises out instead of
falling through — refuting the claim that no failure in the rule-source
resolution path aborts the categorization run. -/
theorem C4_counterexample :
    resultRaises (check_merchant_migration envParseFail ⟨fsCsv, [], []⟩ cfgCsv ["c"] true false) = true := by
  rfl

/-- C4, amended: in the CSV branch, once the initial legacy load succeeds
the resolver never raises — every later failure, a failed
RuleFormatMigration included, is absorbed; when the user or flag decided
to migrate and RuleFormatMigration succeeded, the run returns the rules
loaded from the new merchants.rules file; when it failed, the run falls
through and returns the rules retrieved from the legacy path for this run;
but a parse failure in that initial, unguarded legacy load itself
propagates out of check_merchant_migration. -/
theorem C4_resolver_abort_amended
    (env : Env) (st : St) (cfg : TallyConfig) (config_dir : Path)
    (quiet migrate : Bool) (mf : Path) (c : String)
    (hmf : cfg.merchants_file = some mf) (hne : mf ≠ [])
    (hfmt : cfg.merchants_format = some "csv")
    (hlk : st.fs.lookup mf = some (Node.file c)) :
    (env.parseFails c = true →
       resultRaises (check_merchant_migration env st cfg config_dir quiet migrate) = true) ∧
    (env.parseFails c = false →
       resultRaises (check_merchant_migration env st cfg config_dir quiet migrate) = false ∧
       (∀ stp str, csvPromptStep env st quiet migrate = (true, stp) →
          migrate_csv_to_rules env (pushOut stp migratingMsg) mf config_dir true = (true, str) →
          check_merchant_migration env st cfg config_dir quiet migrate
            = Except.ok (get_all_rules env (pushOut str migrationCompleteMsg).fs
                (some (config_dir ++ ["merchants.rules"])) cfg.rule_mode,
                pushOut str migrationCompleteMsg)) ∧
       (∀ stp str, csvPromptStep env st quiet migrate = (true, stp) →
          migrate_csv_to_rules env (pushOut stp migratingMsg) mf config_dir true = (false, str) →
          resultRules (check_merchant_migration env st cfg config_dir quiet migrate)
            = get_all_rules env str.fs (some mf) cfg.rule_mode)) := by
  have hpt : pathTruthy cfg.merchants_file = true := by
    rw [hmf]
    unfold pathTruthy
    cases mf with
    | nil => exact absurd rfl hne
    | cons a t => rfl
  constructor
  · intro hpf
    unfold check_merchant_migration
    rw [if_neg (by rw [hpt]; exact fun h => Bool.noConfusion h)]
    rw [hmf]
    dsimp only
    rw [if_pos hfmt]
    unfold load_merchant_rules
    rw [hlk]
    dsimp only
    rw [if_pos hpf]
    rfl
  · intro hpf
    refine ⟨?_, ?_, ?_⟩
    · unfold check_merchant_migration
      rw [if_neg (by rw [hpt]; exact fun h => Bool.noConfusion h)]
      rw [hmf]
      dsimp only
      rw [if_pos hfmt]
      unfold load_merchant_rules
      rw [hlk]
      dsimp only
      rw [if_neg (by rw [hpf]; exact fun h => Bool.noConfusion h)]
      dsimp only
      repeat' split
      all_goals rfl
    · intro stp str hps hmr
      have heq := cmm_csv_eq env st cfg config_dir quiet migrate mf c hmf hne hfmt hlk hpf
      rw [hps] at heq
      dsimp only at heq
      rw [if_pos rfl] at heq
      rw [hmr] at heq
      dsimp only at heq
      exact heq
    · intro stp str hps hmr
      have heq := cmm_csv_eq env st cfg config_dir quiet migrate mf c hmf hne hfmt hlk hpf
      rw [hps] at heq
      dsimp only at heq
      rw [if_pos rfl] at heq
      rw [hmr] at heq
      dsimp only at heq
      rw [heq, csvFallThrough_rules]

theorem C4_witness :
    cfgCsv.merchants_file = some ["c", "m.csv"] ∧
    (["c", "m.csv"] : Path) ≠ [] ∧
    cfgCsv.merchants_format = some "csv" ∧
    FS.lookup fsCsv ["c", "m.csv"] = some (Node.file "rows") ∧
    baseEnv.parseFails "rows" = false ∧
    csvPromptStep baseEnv ⟨fsCsv, [], []⟩ true true = (true, ⟨fsCsv, [], []⟩) ∧
    resultRaises (check_merchant_migration baseEnv ⟨fsCsv, [], []⟩ cfgCsv ["c"] true true) = false ∧
    check_merchant_migration baseEnv ⟨fsCsv, [], []⟩ cfgCsv ["c"] true true
      = Except.ok (get_all_rules baseEnv
          (pushOut (migrate_csv_to_rules baseEnv (pushOut ⟨fsCsv, [], []⟩ migratingMsg)
            ["c", "m.csv"] ["c"] true).2 migrationCompleteMsg).fs
          (some (["c"] ++ ["merchants.rules"])) cfgCsv.rule_mode,
          pushOut (migrate_csv_to_rules baseEnv (pushOut ⟨fsCsv, [], []⟩ migratingMsg)
            ["c", "m.csv"] ["c"] true).2 migrationCompleteMsg) :=
  ⟨rfl, by decide, rfl, rfl, rfl, rfl,
   ((C4_resolver_abort_amended baseEnv ⟨fsCsv, [], []⟩ cfgCsv ["c"] true true
       ["c", "m.csv"] "rows" rfl (by decide) rfl rfl).2 rfl).1,
   ((C4_resolver_abort_amended baseEnv ⟨fsCsv, [], []⟩ cfgCsv ["c"] true true
       ["c", "m.csv"] "rows" rfl (by decide) rfl rfl).2 rfl).2.1
     ⟨fsCsv, [], []⟩
     (migrate_csv_to_rules baseEnv (pushOut ⟨fsCsv, [], []⟩ migratingMsg) ["c", "m.csv"] ["c"] true).2
     rfl rfl⟩

/-- C9, counterexample: in the successful-CSV-migration branch the run
returns early with the new file rules and never checks them for emptiness,
so a non-quiet run with an empty resulting rule set emits zero no-rules
warnings — refuting the claim that every branch warns exactly once. -/
theorem C9_counterexample :
    resultRules (check_merchant_migration envNoTTY ⟨fsCsv, [], []⟩ cfgCsv ["c"] false true) = [] ∧
    warnCount (resultSt (check_merchant_migration envNoTTY ⟨fsCsv, [], []⟩ cfgCsv ["c"] false true)).out = 0 := by
  constructor <;> rfl

/-- C9, amended: the no-rules warning is keyed on the rule set the branch
inspected, not always on the returned set.  On a non-quiet run: the
no-rule-file and unknown-format branches warn exactly once always; the
new-format branch warns exactly once precisely in the empty case it then
returns; the CSV fall-through — reached after a declined migration or a
failed RuleFormatMigration — warns exactly once precisely when the
originally loaded legacy rule set is empty, while the set it returns is
re-read from the (possibly already renamed) legacy path and can be empty
without any warning; and the successful-migration branch performs no
emptiness check at all. -/
theorem C9_no_rules_warning_amended
    (env : Env) (st : St) (cfg : TallyConfig) (config_dir : Path) (migrate : Bool) :
    (pathTruthy cfg.merchants_file = false →
       warnCount (resultSt (check_merchant_migration env st cfg config_dir false migrate)).out
         = warnCount st.out + 1) ∧
    (∀ mf, cfg.merchants_file = some mf → mf ≠ [] →
       cfg.merchants_format = some "new" →
       get_all_rules env st.fs (some mf) cfg.rule_mode = [] →
       resultRules (check_merchant_migration env st cfg config_dir false migrate) = [] ∧
       warnCount (resultSt (check_merchant_migration env st cfg config_dir false migrate)).out
         = warnCount st.out + 1) ∧
    (∀ mf c stp, cfg.merchants_file = some mf → mf ≠ [] →
       cfg.merchants_format = some "csv" →
       st.fs.lookup mf = some (Node.file c) →
       env.parseFails c = false →
       csvPromptStep env st false migrate = (false, stp) →
       env.rulesOfContent c = [] →
       resultRules (check_merchant_migration env st cfg config_dir false migrate) = [] ∧
       warnCount (resultSt (check_merchant_migration env st cfg config_dir false migrate)).out
         = warnCount st.out + 1) ∧
    (∀ mf c stp str, cfg.merchants_file = some mf → mf ≠ [] →
       cfg.merchants_format = some "csv" →
       st.fs.lookup mf = some (Node.file c) →
       env.parseFails c = false →
       csvPromptStep env st false migrate = (true, stp) →
       migrate_csv_to_rules env (pushOut stp migratingMsg) mf config_dir true = (false, str) →
       (env.rulesOfContent c = [] →
          warnCount (resultSt (check_merchant_migration env st cfg config_dir false migrate)).out
            = warnCount str.out + 1) ∧
       (env.rulesOfContent c ≠ [] →
          warnCount (resultSt (check_merchant_migration env st cfg config_dir false migrate)).out
            = warnCount str.out ∧
          resultRules (check_merchant_migration env st cfg config_dir false migrate)
            = get_all_rules env str.fs (some mf) cfg.rule_mode)) ∧
    (∀ mf, cfg.merchants_file = some mf → mf ≠ [] →
       cfg.merchants_format ≠ some "csv" →
       cfg.merchants_format ≠ some "new" →
       warnCount (resultSt (check_merchant_migration env st cfg config_dir false migrate)).out
         = warnCount st.out + 1) := by
  refine ⟨?_, ?_, ?_, ?_, ?_⟩
  · intro hpt0
    unfold check_merchant_migration
    rw [if_pos hpt0]
    show warnCount (noRulesFoundMsg :: st.out) = warnCount st.out + 1
    rw [warnCount_cons_found]
  · intro mf hmf hne hfmt hrules
    have hpt : pathTruthy cfg.merchants_file = true := by
      rw [hmf]
      unfold pathTruthy
      cases mf with
      | nil => exact absurd rfl hne
      | cons a t => rfl
    have heq : check_merchant_migration env st cfg config_dir false migrate
        = Except.ok ([], pushOut (pushOut st loadedRulesMsg) noRulesWarnMsg) := by
      unfold check_merchant_migration
      rw [if_neg (by rw [hpt]; exact fun h => Bool.noConfusion h)]
      rw [hmf]
      dsimp only
      rw [if_neg (by simp [hfmt])]
      rw [if_pos hfmt]
      rw [hrules]
      rfl
    rw [heq]
    refine ⟨rfl, ?_⟩
    show warnCount (noRulesWarnMsg :: loadedRulesMsg :: st.out) = warnCount st.out + 1
    rw [warnCount_cons_warn,
      warnCount_cons_other loadedRulesMsg st.out (by decide) (by decide)]
  · intro mf c stp hmf hne hfmt hlk hpf hps hrc
    have heq := cmm_csv_eq env st cfg config_dir false migrate mf c hmf hne hfmt hlk hpf
    rw [hps] at heq
    dsimp only at heq
    rw [if_neg (fun h => Bool.noConfusion h)] at heq
    rw [hrc] at heq
    have hfs : stp.fs = st.fs := by
      have h2 := csvPromptStep_fs env st false migrate
      rw [hps] at h2
      exact h2
    have hwps : warnCount stp.out = warnCount st.out := by
      have h2 := csvPromptStep_warn env st false migrate
      rw [hps] at h2
      exact h2
    constructor
    · rw [heq, csvFallThrough_rules, hfs]
      unfold get_all_rules
      dsimp only
      rw [hlk]
      dsimp only
      rw [hrc]
    · rw [heq, csvFallThrough_warn]
      rw [if_pos (show ([] : RuleSet).length = 0 from rfl)]
      rw [hwps]
  · intro mf c stp str hmf hne hfmt hlk hpf hps hmr
    have heq := cmm_csv_eq env st cfg config_dir false migrate mf c hmf hne hfmt hlk hpf
    rw [hps] at heq
    dsimp only at heq
    rw [if_pos rfl] at heq
    rw [hmr] at heq
    dsimp only at heq
    constructor
    · intro hrc
      rw [hrc] at heq
      rw [heq, csvFallThrough_warn]
      rw [if_pos (show ([] : RuleSet).length = 0 from rfl)]
    · intro hrc
      constructor
      · rw [heq, csvFallThrough_warn]
        rw [if_neg (fun h => hrc (List.length_eq_zero.mp h))]
      · rw [heq, csvFallThrough_rules]
  · intro mf hmf hne hcsv hnew
    have hpt : pathTruthy cfg.merchants_file = true := by
      rw [hmf]
      unfold pathTruthy
      cases mf with
      | nil => exact absurd rfl hne
      | cons a t => rfl
    unfold check_merchant_migration
    rw [if_neg (by rw [hpt]; exact fun h => Bool.noConfusion h)]
    rw [hmf]
    dsimp only
    rw [if_neg hcsv, if_neg hnew]
    show warnCount (noRulesFoundMsg :: st.out) = warnCount st.out + 1
    rw [warnCount_cons_found]

theorem C9_witness :
    cfgCsv.merchants_file = some ["c", "m.csv"] ∧
    (["c", "m.csv"] : Path) ≠ [] ∧
    cfgCsv.merchants_format = some "csv" ∧
    FS.lookup fsCsvEmpty ["c", "m.csv"] = some (Node.file "x") ∧
    envNoTTY.parseFails "x" = false ∧
    csvPromptStep envNoTTY ⟨fsCsvEmpty, [], []⟩ false false
      = (false, pushOut (pushOut ⟨fsCsvEmpty, [], []⟩ upgradeBoxMsg) migrateTipMsg) ∧
    envNoTTY.rulesOfContent "x" = [] ∧
    resultRules (check_merchant_migration envNoTTY ⟨fsCsvEmpty, [], []⟩ cfgCsv ["c"] false false) = [] ∧
    warnCount (resultSt (check_merchant_migration envNoTTY ⟨fsCsvEmpty, [], []⟩ cfgCsv ["c"] false false)).out
      = warnCount (St.out ⟨fsCsvEmpty, [], []⟩) + 1 :=
  ⟨rfl, by decide, rfl, rfl, rfl, rfl, rfl,
   ((C9_no_rules_warning_amended envNoTTY ⟨fsCsvEmpty, [], []⟩ cfgCsv ["c"] false).2.2.1
     ["c", "m.csv"] "x" (pushOut (pushOut ⟨fsCsvEmpty, [], []⟩ upgradeBoxMsg) migrateTipMsg)
     rfl (by decide) rfl rfl rfl rfl rfl).1,
   ((C9_no_rules_warning_amended envNoTTY ⟨fsCsvEmpty, [], []⟩ cfgCsv ["c"] false).2.2.1
     ["c", "m.csv"] "x" (pushOut (pushOut ⟨fsCsvEmpty, [], []⟩ upgradeBoxMsg) migrateTipMsg)
     rfl (by decide) rfl rfl rfl rfl rfl).2⟩

end Tally
